import Mathlib

/-!
Verification of the ISA Monte Carlo simulation engine
(`impact_isa_model.py` and `simple_isa_model.py`).

The Python code is embedded shallowly: floating point numbers are modelled
as rationals, every random draw (normal / lognormal / bernoulli / uniform)
becomes an explicit input parameter, and mutation becomes explicit state
passing.  Definitions mirror the source functions line by line; theorems
settle the frozen claims about the engine.
-/

/-- Economic state, `class Year` of `impact_isa_model.py` (lines 7-38).
The same fields appear in `simple_isa_model.py` (lines 9-24); that variant
additionally stores a `random_seed`, which plays no computational role. -/
structure Year where
  year_count : ℕ
  inflation_rate : ℚ
  stable_inflation_rate : ℚ
  unemployment_rate : ℚ
  stable_unemployment_rate : ℚ
  isa_cap : ℚ
  isa_threshold : ℚ
  deflator : ℚ
  deriving DecidableEq, Repr

/-- `Year.__init__`: both source files initialise `year_count = 1`,
`stable_* = initial_*` and `deflator = 1`. -/
def Year.init (initial_inflation_rate initial_unemployment_rate
    initial_isa_cap initial_isa_threshold : ℚ) : Year :=
  { year_count := 1
    inflation_rate := initial_inflation_rate
    stable_inflation_rate := initial_inflation_rate
    unemployment_rate := initial_unemployment_rate
    stable_unemployment_rate := initial_unemployment_rate
    isa_cap := initial_isa_cap
    isa_threshold := initial_isa_threshold
    deflator := 1 }

/-- `Year.next_year` of `impact_isa_model.py` (lines 22-38).
`inflation_shock` stands for the draw `np.random.normal(0, .01)` and
`unemployment_shock` for `np.random.lognormal(-4, 0.5)`. -/
def Year.next_year (y : Year) (inflation_shock unemployment_shock : ℚ) : Year :=
  let infl := y.stable_inflation_rate * (45/100) + y.inflation_rate * (1/2) + inflation_shock
  let unemp := max (2/100) (min (15/100)
    (y.stable_unemployment_rate * (7/10) + y.unemployment_rate * (2/10) + unemployment_shock))
  { year_count := y.year_count + 1
    inflation_rate := infl
    stable_inflation_rate := y.stable_inflation_rate
    unemployment_rate := unemp
    stable_unemployment_rate := y.stable_unemployment_rate
    isa_cap := y.isa_cap * (1 + infl)
    isa_threshold := y.isa_threshold * (1 + infl)
    deflator := y.deflator * (1 + infl) }

namespace Simple

/-- `Year.next_year` of `simple_isa_model.py` (lines 26-62): different blend
weights and, unlike the impact-model variant, both rates are clamped —
inflation to [-0.02, 0.15] and unemployment to [0.02, 0.30]. -/
def next_year (y : Year) (inflation_shock unemployment_shock : ℚ) : Year :=
  let infl := max (-(2/100)) (min (15/100)
    (y.stable_inflation_rate * (45/100) + y.inflation_rate * (1/2) + inflation_shock))
  let unemp := max (2/100) (min (30/100)
    (y.stable_unemployment_rate * (33/100) + y.unemployment_rate * (25/100) + unemployment_shock))
  { year_count := y.year_count + 1
    inflation_rate := infl
    stable_inflation_rate := y.stable_inflation_rate
    unemployment_rate := unemp
    stable_unemployment_rate := y.stable_unemployment_rate
    isa_cap := y.isa_cap * (1 + infl)
    isa_threshold := y.isa_threshold * (1 + infl)
    deflator := y.deflator * (1 + infl) }

end Simple

/-- The trajectory of the economic state under repeated `Year.next_year`
calls (impact model), with the period-`t` shock pair supplied by `shocks t`. -/
def yearTraj (y0 : Year) (shocks : ℕ → ℚ × ℚ) : ℕ → Year
  | 0 => y0
  | t + 1 => (yearTraj y0 shocks t).next_year (shocks t).1 (shocks t).2

/-- The trajectory of the economic state under repeated `Simple.next_year`
calls (simple model, advanced once per simulated year at
`simple_isa_model.py` line 231). -/
def simpleYearTraj (y0 : Year) (shocks : ℕ → ℚ × ℚ) : ℕ → Year
  | 0 => y0
  | t + 1 => Simple.next_year (simpleYearTraj y0 shocks t) (shocks t).1 (shocks t).2

/-- `class Degree` of `impact_isa_model.py` (lines 40-50). -/
structure Degree where
  name : String
  mean_earnings : ℚ
  stdev : ℚ
  experience_growth : ℚ
  years_to_complete : ℕ
  home_prob : ℚ
  deriving DecidableEq

/-- `CounterfactualParams` dataclass of `impact_isa_model.py` (lines 52-65). -/
structure CounterfactualParams where
  base_earnings : ℚ
  earnings_growth : ℚ
  remittance_rate : ℚ
  employment_rate : ℚ
  household_size_counterfactual : ℕ
  household_size_remittance : ℕ
  num_earners : ℕ
  control_earner_multiplier : ℚ
  returner_treatment_effect : ℚ
  deriving DecidableEq

/-- `_calculate_graduation_delay` of `impact_isa_model.py` (lines 1571-1618);
`rand` stands for the draw `np.random.random()`. -/
def calculate_graduation_delay (base_years_to_complete : ℕ) (degree_name : String)
    (rand : ℚ) : ℕ :=
  if degree_name = "MA" ∨ degree_name = "NURSE" ∨ degree_name = "TRADE" then
    if rand < 75/100 then base_years_to_complete
    else if rand < 95/100 then base_years_to_complete + 1
    else if rand < 975/1000 then base_years_to_complete + 2
    else base_years_to_complete + 3
  else
    if rand < 1/2 then base_years_to_complete
    else if rand < 3/4 then base_years_to_complete + 1
    else if rand < 7/8 then base_years_to_complete + 2
    else if rand < 15/16 then base_years_to_complete + 3
    else base_years_to_complete + 4

/-- `class Student` of `impact_isa_model.py` (lines 94-162): per-student
mutable trajectory state.  The `id` field is `None` in `__init__` and set by
the simulation before use; it is modelled as a natural number. -/
structure Student where
  degree : Degree
  num_years : ℕ
  counterfactual_params : CounterfactualParams
  stipend_income : ℚ
  stipend_std : ℚ
  german_learning_years : ℕ
  study_income : ℚ
  passed_german : Option Bool
  in_germany : Bool
  starting_age : ℚ
  life_expectancy : ℚ
  current_age : ℚ
  years_experience : ℕ
  earnings_power : ℚ
  is_graduated : Bool
  is_employed : Bool
  is_home : Bool
  actual_years_to_complete : ℕ
  earnings : List ℚ
  counterfactual_earnings : List ℚ
  payments : List ℚ
  real_payments : List ℚ
  years_paid : ℕ
  hit_cap : Bool
  employment_history : List Bool
  unemployment_spells : List ℕ
  current_unemployment_spell : ℕ
  will_return_home : Bool
  peak_earnings : ℚ
  peak_earnings_age : ℚ
  id : ℕ
  start_year : ℕ
  deriving DecidableEq

/-- `Student.__init__`: `home_draw` stands for `np.random.random()` compared
against `degree.home_prob`, and `delay_rand` for the uniform draw inside
`_calculate_graduation_delay`. -/
def Student.init (degree : Degree) (num_years : ℕ)
    (counterfactual_params : CounterfactualParams)
    (starting_age life_expectancy stipend_income stipend_std : ℚ)
    (german_learning_years : ℕ) (study_income : ℚ)
    (home_draw delay_rand : ℚ) : Student :=
  { degree := degree
    num_years := num_years
    counterfactual_params := counterfactual_params
    stipend_income := stipend_income
    stipend_std := stipend_std
    german_learning_years := german_learning_years
    study_income := study_income
    passed_german := none
    in_germany := german_learning_years == 0
    starting_age := starting_age
    life_expectancy := life_expectancy
    current_age := starting_age
    years_experience := 0
    earnings_power := 0
    is_graduated := false
    is_employed := false
    is_home := false
    actual_years_to_complete :=
      calculate_graduation_delay degree.years_to_complete degree.name delay_rand
    earnings := List.replicate num_years 0
    counterfactual_earnings := List.replicate num_years 0
    payments := List.replicate num_years 0
    real_payments := List.replicate num_years 0
    years_paid := 0
    hit_cap := false
    employment_history := List.replicate num_years false
    unemployment_spells := []
    current_unemployment_spell := 0
    will_return_home := decide (home_draw < degree.home_prob)
    peak_earnings := 0
    peak_earnings_age := 0
    id := 0
    start_year := 0 }

/-- Terminal classifications of a contract,
`exit_reason ∈ {'payment_cap','years_cap','home_return','default'}`. -/
inductive ExitReason where
  | payment_cap : ExitReason
  | years_cap : ExitReason
  | home_return : ExitReason
  | default : ExitReason
  deriving DecidableEq

/-- `Contract` dataclass of `impact_isa_model.py` (lines 437-466). -/
structure Contract where
  student_id : ℕ
  purchase_price : ℚ
  remaining_payments : ℕ
  total_payments : ℚ
  current_value : ℚ
  is_active : Bool
  exit_reason : Option ExitReason
  deriving DecidableEq

/-- `Contract(student_id, purchase_price, remaining_payments)` together with
`__post_init__`, which sets `current_value = purchase_price`. -/
def Contract.make (student_id : ℕ) (purchase_price : ℚ) (remaining_payments : ℕ) : Contract :=
  { student_id := student_id
    purchase_price := purchase_price
    remaining_payments := remaining_payments
    total_payments := 0
    current_value := purchase_price
    is_active := true
    exit_reason := none }

/-- `Contract.record_payment` (lines 451-460): note that the Python
`max(0, remaining - 1)` is natural-number subtraction here, and that the
value update reads the already-decremented `remaining_payments`. -/
def Contract.record_payment (c : Contract) (amount : ℚ) : Contract :=
  let remaining := c.remaining_payments - 1
  { c with
    total_payments := c.total_payments + amount
    remaining_payments := remaining
    current_value :=
      if 0 < remaining ∧ c.is_active = true then c.purchase_price * ((remaining : ℚ) / 10)
      else 0 }

/-- `Contract.mark_exit` (lines 462-466). -/
def Contract.mark_exit (c : Contract) (reason : ExitReason) : Contract :=
  { c with is_active := false, exit_reason := some reason, current_value := 0 }

/-- The `contract_metrics` dictionary of `InvestmentPool.__init__`. -/
structure ContractMetrics where
  total_contracts : ℕ
  payment_cap_exits : ℕ
  years_cap_exits : ℕ
  home_return_exits : ℕ
  default_exits : ℕ
  deriving DecidableEq

/-- `self.contract_metrics[f'..._exits'] += 1`. -/
def ContractMetrics.incrementExit (m : ContractMetrics) : ExitReason → ContractMetrics
  | ExitReason.payment_cap => { m with payment_cap_exits := m.payment_cap_exits + 1 }
  | ExitReason.years_cap => { m with years_cap_exits := m.years_cap_exits + 1 }
  | ExitReason.home_return => { m with home_return_exits := m.home_return_exits + 1 }
  | ExitReason.default => { m with default_exits := m.default_exits + 1 }

/-- Sum of the four per-exit-reason counters. -/
def ContractMetrics.exitSum (m : ContractMetrics) : ℕ :=
  m.payment_cap_exits + m.years_cap_exits + m.home_return_exits + m.default_exits

/-- `class InvestmentPool` of `impact_isa_model.py` (lines 468-557). -/
structure InvestmentPool where
  initial_amount : ℚ
  available_funds : ℚ
  yearly_returns : ℚ
  yearly_cash : List ℚ
  contracts : List Contract
  students : List Student
  isa_cap : ℚ
  contract_metrics : ContractMetrics
  deriving DecidableEq

/-- `InvestmentPool.__init__` (lines 470-484). -/
def InvestmentPool.init (initial_amount isa_cap : ℚ) : InvestmentPool :=
  { initial_amount := initial_amount
    available_funds := initial_amount
    yearly_returns := 0
    yearly_cash := [initial_amount]
    contracts := []
    students := []
    isa_cap := isa_cap
    contract_metrics :=
      { total_contracts := 0, payment_cap_exits := 0, years_cap_exits := 0,
        home_return_exits := 0, default_exits := 0 } }

/-- `InvestmentPool.invest` (lines 486-494).  Note the Python constructor
call `Contract(len(self.contracts), start_year, num_years)`: the second
positional argument (`start_year`) lands in the `purchase_price` field. -/
def InvestmentPool.invest (p : InvestmentPool) (amount start_year : ℚ)
    (num_years : ℕ) : Bool × InvestmentPool :=
  if amount ≤ p.available_funds then
    (true,
      { p with
        available_funds := p.available_funds - amount
        contracts := p.contracts ++ [Contract.make p.contracts.length start_year num_years]
        contract_metrics :=
          { p.contract_metrics with
            total_contracts := p.contract_metrics.total_contracts + 1 } })
  else (false, p)

/-- `InvestmentPool.add_student` (lines 496-498). -/
def InvestmentPool.add_student (p : InvestmentPool) (s : Student) : InvestmentPool :=
  { p with students := p.students ++ [s] }

/-- `InvestmentPool.receive_payment` (lines 500-503). -/
def InvestmentPool.receive_payment (p : InvestmentPool) (amount : ℚ) : InvestmentPool :=
  { p with
    available_funds := p.available_funds + amount
    yearly_returns := p.yearly_returns + amount }

/-- The search loop of `InvestmentPool.mark_contract_exit` (lines 505-511):
mark the first *active* contract whose `student_id` matches, if any;
the Boolean reports whether one was found. -/
def markFirstActive : List Contract → ℕ → ExitReason → List Contract × Bool
  | [], _, _ => ([], false)
  | c :: cs, sid, reason =>
    if c.student_id = sid ∧ c.is_active = true then (c.mark_exit reason :: cs, true)
    else
      let r := markFirstActive cs sid reason
      (c :: r.1, r.2)

/-- `InvestmentPool.mark_contract_exit` (lines 505-511): the per-reason
counter is incremented exactly when an active matching contract was found. -/
def InvestmentPool.mark_contract_exit (p : InvestmentPool) (sid : ℕ)
    (reason : ExitReason) : InvestmentPool :=
  let r := markFirstActive p.contracts sid reason
  { p with
    contracts := r.1
    contract_metrics :=
      if r.2 then p.contract_metrics.incrementExit reason else p.contract_metrics }

/-- `InvestmentPool.end_year` (lines 513-522): snapshot cash, reset and
return the yearly returns accumulator. -/
def InvestmentPool.end_year (p : InvestmentPool) : ℚ × InvestmentPool :=
  (p.yearly_returns,
    { p with
      yearly_cash := p.yearly_cash ++ [p.available_funds]
      yearly_returns := 0 })

/-- The in-loop contract update of `simulate_impact` (lines 1054-1058):
record a payment on the first active contract whose `student_id` matches. -/
def recordFirstActive : List Contract → ℕ → ℚ → List Contract
  | [], _, _ => []
  | c :: cs, sid, amount =>
    if c.student_id = sid ∧ c.is_active = true then c.record_payment amount :: cs
    else c :: recordFirstActive cs sid amount

/-- The exit reason chosen by `InvestmentPool.mark_remaining_as_defaulted`
(lines 524-543) for one contract, looking up the student by id. -/
def sweepReason (p : InvestmentPool) (c : Contract) : ExitReason :=
  match p.students.find? (fun s => s.id == c.student_id) with
  | none => ExitReason.default
  | some s =>
    if p.isa_cap * (1/2) ≤ s.payments.sum then ExitReason.years_cap
    else if s.is_home = true then ExitReason.home_return
    else if s.is_graduated = true ∧ s.will_return_home = true then ExitReason.home_return
    else ExitReason.default

/-- One iteration of the `for contract in self.contracts` loop of
`mark_remaining_as_defaulted`, at list position `i`.  (Python mutates the
contract objects in place while iterating; position `i` is read from the
current state.) -/
def sweepStep (q : InvestmentPool) (i : ℕ) : InvestmentPool :=
  match q.contracts[i]? with
  | none => q
  | some c =>
    if c.is_active = true then q.mark_contract_exit c.student_id (sweepReason q c)
    else q

/-- `InvestmentPool.mark_remaining_as_defaulted` (lines 524-543): iterate
over the contract list in order, resolving every still-active contract. -/
def InvestmentPool.mark_remaining_as_defaulted (p : InvestmentPool) : InvestmentPool :=
  (List.range p.contracts.length).foldl sweepStep p

/-- The result of `InvestmentPool.calculate_irr`: the code returns `0`, the
float `-inf`, or `ln(end_value/start_value)/years`.  The last case is kept
symbolic so that the embedding stays executable; `IRRVal.denote` gives it
its real-number meaning. -/
inductive IRRVal where
  | zero : IRRVal
  | negInf : IRRVal
  | logOver (end_value start_value : ℚ) (years : ℕ) : IRRVal
  deriving DecidableEq

/-- Real-number meaning of an `IRRVal` as an extended real. -/
noncomputable def IRRVal.denote : IRRVal → EReal
  | IRRVal.zero => (0 : EReal)
  | IRRVal.negInf => ⊥
  | IRRVal.logOver e s y => ((Real.log ((e : ℝ) / (s : ℝ)) / (y : ℝ) : ℝ) : EReal)

/-- `InvestmentPool.calculate_irr` (lines 545-557). -/
def InvestmentPool.calculate_irr (p : InvestmentPool) : IRRVal :=
  if p.yearly_cash.length < 2 then IRRVal.zero
  else
    let end_value := p.yearly_cash.getLastD 0
    let start_value := p.initial_amount
    let years := p.yearly_cash.length - 1
    if end_value ≤ 0 ∨ start_value ≤ 0 then IRRVal.negInf
    else IRRVal.logOver end_value start_value years

/-- A small concrete pool holding one contract that has already exited with
reason `home_return`, used to witness C5. -/
def poolWithInactiveContract : InvestmentPool :=
  { initial_amount := 1000
    available_funds := 500
    yearly_returns := 0
    yearly_cash := [1000]
    contracts := [Contract.mark_exit (Contract.make 0 0 20) ExitReason.home_return]
    students := []
    isa_cap := 49500
    contract_metrics :=
      { total_contracts := 1, payment_cap_exits := 0, years_cap_exits := 0,
        home_return_exits := 1, default_exits := 0 } }

/-- Bookkeeping invariant of an `InvestmentPool`: the `total_contracts`
counter equals the number of contracts ever created, the four exit counters
sum to the number of inactive contracts, and the `student_id` stored in each
contract equals its position in the list (which is how `invest` assigns
them, making ids unique). -/
def poolWF (p : InvestmentPool) : Prop :=
  p.contract_metrics.total_contracts = p.contracts.length
  ∧ p.contract_metrics.exitSum = p.contracts.countP (fun c => !c.is_active)
  ∧ ∀ (i : ℕ) (c : Contract), p.contracts[i]? = some c → c.student_id = i

/-- The pool-mutating operations performed inside one run of
`simulate_impact`: investing (initial cohort and reinvestment), roster
additions, receiving payments, exit marking, recording a payment on a
contract, and the end-of-year snapshot. -/
inductive PoolOp where
  | investOp (amount start_year : ℚ) (num_years : ℕ) : PoolOp
  | addStudentOp (s : Student) : PoolOp
  | receivePaymentOp (amount : ℚ) : PoolOp
  | markExitOp (sid : ℕ) (reason : ExitReason) : PoolOp
  | recordPaymentOp (sid : ℕ) (amount : ℚ) : PoolOp
  | endYearOp : PoolOp

/-- Effect of one `PoolOp` on the pool state. -/
def PoolOp.apply (p : InvestmentPool) : PoolOp → InvestmentPool
  | PoolOp.investOp amount start_year num_years => (p.invest amount start_year num_years).2
  | PoolOp.addStudentOp s => p.add_student s
  | PoolOp.receivePaymentOp amount => p.receive_payment amount
  | PoolOp.markExitOp sid reason => p.mark_contract_exit sid reason
  | PoolOp.recordPaymentOp sid amount =>
      { p with contracts := recordFirstActive p.contracts sid amount }
  | PoolOp.endYearOp => (p.end_year).2

/-- Apply a sequence of pool operations in order. -/
def applyOps (p : InvestmentPool) (ops : List PoolOp) : InvestmentPool :=
  ops.foldl PoolOp.apply p

/-- `Student.calculate_counterfactual_earnings` of `impact_isa_model.py`
(lines 303-331): household model, scaled by the deflator; pure (no state
mutation). -/
def Student.calculate_counterfactual_earnings (s : Student) (relative_year : ℕ)
    (year : Year) : ℚ :=
  if s.life_expectancy ≤ s.starting_age + (relative_year : ℚ) then 0
  else
    let params := s.counterfactual_params
    let control_income := params.base_earnings * params.control_earner_multiplier
    let other_earners_income := params.base_earnings * ((params.num_earners : ℚ) - 1)
    let total_household_income := control_income + other_earners_income
    let per_person_consumption :=
      total_household_income / (params.household_size_counterfactual : ℚ)
    per_person_consumption * year.deflator

/-- Branch conditions under which `calculate_earnings` takes the
post-graduation employed path in period `relative_year` and draws employed:
the student is alive, past any German-learning phase (with German passed if
there was one), graduated, not returning home, the economy admits
employment draws, and this period's Bernoulli draw is employed. -/
def takesEmployedPath (s : Student) (relative_year : ℕ) (y : Year)
    (employment_draw : Bool) : Prop :=
  s.starting_age + (relative_year : ℚ) < s.life_expectancy
  ∧ s.german_learning_years ≤ relative_year
  ∧ (s.german_learning_years = 0 ∨ (s.passed_german = some true ∧ s.in_germany = true))
  ∧ s.german_learning_years + s.actual_years_to_complete ≤ relative_year
  ∧ s.will_return_home = false
  ∧ y.unemployment_rate < 1
  ∧ employment_draw = true

instance (s : Student) (relative_year : ℕ) (y : Year) (employment_draw : Bool) :
    Decidable (takesEmployedPath s relative_year y employment_draw) := by
  unfold takesEmployedPath
  infer_instance

/-- The once-only German acquisition check of `Student.calculate_earnings`
(`impact_isa_model.py` lines 195-209), entered when
`german_learning_years > 0 and passed_german is None`: `NA` students fail
and are routed home permanently, everyone else passes and is in Germany. -/
def Student.germanCheckUpdate (s : Student) : Student :=
  let passed := s.degree.name ≠ "NA"
  let s2 : Student := { s with passed_german := some (decide passed), in_germany := decide passed }
  if ¬passed then { s2 with will_return_home := true, is_home := true } else s2

/-- The home-return earnings of `Student.calculate_earnings`
(lines 228-241): counterfactual earnings plus an optional per-person
treatment effect scaled by the deflator. -/
def Student.homeReturnValue (s : Student) (relative_year : ℕ) (year : Year) : ℚ :=
  let base_earnings := s.calculate_counterfactual_earnings relative_year year
  let treatment_effect := s.counterfactual_params.returner_treatment_effect
  if 0 < treatment_effect then
    base_earnings
      + treatment_effect / (s.counterfactual_params.household_size_counterfactual : ℚ)
        * year.deflator
  else base_earnings

/-- The employment-draw block of `Student.calculate_earnings`
(lines 243-262): draw employment while `unemployment_rate < 1` and keep the
running unemployment-spell bookkeeping; when `unemployment_rate ≥ 1` the
student is unemployed outright. -/
def Student.updateEmployment (s : Student) (year : Year) (employment_draw : Bool) : Student :=
  if year.unemployment_rate < 1 then
    let prev := s.is_employed
    let s2 : Student := { s with is_employed := employment_draw }
    if prev = true ∧ employment_draw = false then
      { s2 with current_unemployment_spell := 1 }
    else if prev = false ∧ employment_draw = false then
      { s2 with current_unemployment_spell := s2.current_unemployment_spell + 1 }
    else if prev = false ∧ employment_draw = true then
      { s2 with
        unemployment_spells :=
          if 0 < s2.current_unemployment_spell then
            s2.unemployment_spells ++ [s2.current_unemployment_spell]
          else s2.unemployment_spells,
        current_unemployment_spell := 0 }
    else s2
  else
    { s with
      is_employed := false
      current_unemployment_spell := s.current_unemployment_spell + 1 }

/-- The employed-earnings block of `Student.calculate_earnings`
(lines 271-299): set initial earnings power in the graduation year or when
power is zero, apply the growth factor `1 + experience_growth +
inflation_rate`, cap at `mean_earnings * 1.5 * deflator`, track peak
earnings, and increment experience.  The returned earnings for the year are
the resulting `earnings_power`. -/
def Student.employedEarningsUpdate (s : Student) (relative_year : ℕ) (year : Year)
    (salary_draw : ℚ) : Student :=
  let s : Student :=
    if relative_year = s.actual_years_to_complete ∨ s.earnings_power = 0 then
      { s with earnings_power := max 100 salary_draw, years_experience := 0 }
    else s
  let growth_factor := 1 + s.degree.experience_growth + year.inflation_rate
  let s : Student := { s with earnings_power := s.earnings_power * growth_factor }
  let max_earnings := s.degree.mean_earnings * (3/2) * year.deflator
  let s : Student := { s with earnings_power := min s.earnings_power max_earnings }
  let s : Student :=
    if s.peak_earnings < s.earnings_power then
      { s with peak_earnings := s.earnings_power, peak_earnings_age := s.current_age }
    else s
  { s with years_experience := s.years_experience + 1 }

/-- `Student.calculate_earnings` of `impact_isa_model.py` (lines 171-301),
returning the earnings for the year and the mutated student state.
`employment_draw` stands for `np.random.binomial(1, 1-unemployment_rate)==1`,
`salary_draw` for `np.random.normal(mean_earnings*deflator, stdev*deflator)`,
and `stipend_draw` for `np.random.normal(stipend_income, stipend_std)`. -/
def Student.calculate_earnings (s : Student) (relative_year : ℕ) (year : Year)
    (employment_draw : Bool) (salary_draw stipend_draw : ℚ) : ℚ × Student :=
  let s : Student := { s with current_age := s.starting_age + (relative_year : ℚ) }
  if s.life_expectancy ≤ s.current_age then (0, s)
  else if relative_year < s.german_learning_years then
    (s.calculate_counterfactual_earnings relative_year year, s)
  else
    let s : Student :=
      if 0 < s.german_learning_years ∧ s.passed_german = none then s.germanCheckUpdate
      else s
    if 0 < s.german_learning_years ∧ s.in_germany = false then
      (s.calculate_counterfactual_earnings relative_year year, s)
    else
      let s : Student := { s with
        is_graduated :=
          decide (s.german_learning_years + s.actual_years_to_complete ≤ relative_year) }
      if s.is_graduated = false then
        if 0 < s.german_learning_years ∧ 0 < s.study_income then
          (s.study_income * year.deflator, s)
        else if 0 < s.stipend_income then
          (max 0 (stipend_draw * year.deflator), s)
        else (0, s)
      else if s.will_return_home = true
          ∧ s.german_learning_years + s.actual_years_to_complete ≤ relative_year then
        let s : Student := { s with is_home := true }
        (s.homeReturnValue relative_year year, s)
      else
        let s : Student := s.updateEmployment year employment_draw
        let s : Student := { s with
          employment_history := s.employment_history.set relative_year s.is_employed }
        if s.is_employed = false then (0, s)
        else
          let s : Student := s.employedEarningsUpdate relative_year year salary_draw
          (s.earnings_power, s)

/-- Concrete degree profile used by witnesses: a BA-style track with
integer parameters. -/
def baDegree : Degree :=
  { name := "BA", mean_earnings := 300, stdev := 0, experience_growth := 0,
    years_to_complete := 4, home_prob := 0 }

/-- Concrete counterfactual parameters used by witnesses. -/
def defaultCf : CounterfactualParams :=
  { base_earnings := 1503, earnings_growth := 0, remittance_rate := 0,
    employment_rate := 1, household_size_counterfactual := 5,
    household_size_remittance := 4, num_earners := 2,
    control_earner_multiplier := 1, returner_treatment_effect := 0 }

/-- A freshly initialised BA student used by witnesses: no German phase,
on-time completion draw, will-return draw false. -/
def baStudent : Student :=
  Student.init baDegree 10 defaultCf 22 90 0 0 0 0 1 0

/-- Economic state used by witnesses. -/
def baselineYear : Year := Year.init 1 0 49500 27000

/-- A one-student, one-active-contract pool used to witness C4. -/
def c4pool : InvestmentPool :=
  { initial_amount := 1000
    available_funds := 700
    yearly_returns := 0
    yearly_cash := [1000]
    contracts := [Contract.make 0 300 20]
    students := [baStudent]
    isa_cap := 49500
    contract_metrics :=
      { total_contracts := 1, payment_cap_exits := 0, years_cap_exits := 0,
        home_return_exits := 0, default_exits := 0 } }

/-- One student's slice of the `simulate_impact` period loop
(`impact_isa_model.py` lines 995-1061): compute earnings and counterfactual
earnings, handle the German-failure and home-return exits, then process ISA
payments (default after a >2-year unemployment spell, 10-year payment cap,
inflation-indexed payment cap, contract/pool bookkeeping).  `i` is the
absolute simulation year; the `Year` object is passed unchanged because
`simulate_impact` never advances it. -/
def studentPeriodStep (st : Student) (pool : InvestmentPool) (i : ℕ) (year : Year)
    (isa_percentage : ℚ) (employment_draw : Bool) (salary_draw stipend_draw : ℚ) :
    Student × InvestmentPool :=
  let relative_year := i - st.start_year
  let res := st.calculate_earnings relative_year year employment_draw salary_draw stipend_draw
  let earnings := res.1
  let s2 : Student := { res.2 with
    earnings := res.2.earnings.set relative_year earnings
    counterfactual_earnings := (res.2.counterfactual_earnings.set relative_year
      (res.2.calculate_counterfactual_earnings relative_year year)) }
  if 0 < s2.german_learning_years ∧ s2.passed_german = some false
      ∧ relative_year = s2.german_learning_years then
    (s2, pool.mark_contract_exit s2.id ExitReason.home_return)
  else if s2.is_graduated = true ∧ s2.will_return_home = true
      ∧ s2.german_learning_years + s2.actual_years_to_complete ≤ relative_year then
    (s2, pool.mark_contract_exit s2.id ExitReason.home_return)
  else if s2.is_graduated = true ∧ s2.hit_cap = false then
    if 2 < s2.current_unemployment_spell then
      (s2, pool.mark_contract_exit s2.id ExitReason.default)
    else if year.isa_threshold < earnings then
      let s3 : Student := { s2 with years_paid := s2.years_paid + 1 }
      if 10 ≤ s3.years_paid then
        (s3, pool.mark_contract_exit s3.id ExitReason.years_cap)
      else
        let paymentSum := s3.payments.sum
        let payment := min (earnings * isa_percentage) (year.isa_cap - paymentSum)
        let capped :=
          if year.isa_cap ≤ paymentSum + payment then
            (year.isa_cap - paymentSum, ({ s3 with hit_cap := true } : Student),
              pool.mark_contract_exit s3.id ExitReason.payment_cap)
          else (payment, s3, pool)
        let s4 : Student := { capped.2.1 with
          payments := capped.2.1.payments.set relative_year capped.1
          real_payments := (capped.2.1.real_payments.set relative_year
            (capped.1 / year.deflator)) }
        let pool2 : InvestmentPool := { capped.2.2 with
          contracts := recordFirstActive capped.2.2.contracts s4.id capped.1 }
        (s4, pool2.receive_payment (capped.1 / year.deflator))
    else (s2, pool)
  else (s2, pool)

/-- One simulated period from the point of view of a single student: either
this student's own processing (with its three random draws), or any one of
the pool operations the rest of the run performs that period (other
students' bookkeeping, reinvestment, end-of-year accounting). -/
inductive RunItem where
  | step (employment_draw : Bool) (salary_draw stipend_draw : ℚ) : RunItem
  | env (op : PoolOp) : RunItem

/-- Run a list of `RunItem`s for one student: the `k`-th `step` item
processes the student at absolute year `start_year + k` (the loop processes
each student once per period from its start year on). -/
def runStudent (year : Year) (isa_percentage : ℚ) :
    Student × InvestmentPool → ℕ → List RunItem → Student × InvestmentPool
  | sp, _, [] => sp
  | sp, k, RunItem.step d sal stip :: rest =>
      runStudent year isa_percentage
        (studentPeriodStep sp.1 sp.2 (sp.1.start_year + k) year isa_percentage d sal stip)
        (k + 1) rest
  | sp, k, RunItem.env op :: rest =>
      runStudent year isa_percentage (sp.1, PoolOp.apply sp.2 op) k rest

/-- Every inactive contract of the pool has `current_value = 0`. -/
def inactiveZero (p : InvestmentPool) : Prop :=
  ∀ (idx : ℕ) (c : Contract), p.contracts[idx]? = some c → c.is_active = false
    → c.current_value = 0

/-- The year loop of `simulate_impact` as seen by the pool: in period `t`
the pool operations `pre t` happen first (the payment loop), then
`pool.end_year()` snapshots the cash, then the operations `post t`
(the reinvestment block, lines 1132-1154, which runs only while
`i < num_years - 15`). -/
def runYears (p0 : InvestmentPool) (pre post : ℕ → List PoolOp) : ℕ → InvestmentPool
  | 0 => p0
  | t + 1 =>
      applyOps ((applyOps (runYears p0 pre post t) (pre t)).end_year).2 (post t)

theorem yearTraj_succ (y0 : Year) (shocks : ℕ → ℚ × ℚ) (t : ℕ) :
    yearTraj y0 shocks (t + 1)
      = (yearTraj y0 shocks t).next_year (shocks t).1 (shocks t).2 := rfl

theorem simpleYearTraj_succ (y0 : Year) (shocks : ℕ → ℚ × ℚ) (t : ℕ) :
    simpleYearTraj y0 shocks (t + 1)
      = Simple.next_year (simpleYearTraj y0 shocks t) (shocks t).1 (shocks t).2 := rfl

/-- **C7.**  For every period `t` of a run of either model, the cumulative
deflator equals the product, over the advanced periods `i = 1..t`, of
`(1 + inflation_rate_i)`, and the period-`t` `isa_cap` and `isa_threshold`
equal their initial values multiplied by that cumulative deflator.  In the
rational-number embedding the identities are exact, hence in particular
within floating-point tolerance. -/
theorem deflator_is_product_of_inflation
    (i0 u0 cap0 th0 : ℚ) (shocks : ℕ → ℚ × ℚ) (t : ℕ) :
    ((yearTraj (Year.init i0 u0 cap0 th0) shocks t).deflator
        = ∏ i in Finset.range t,
            (1 + (yearTraj (Year.init i0 u0 cap0 th0) shocks (i + 1)).inflation_rate)
      ∧ (yearTraj (Year.init i0 u0 cap0 th0) shocks t).isa_cap
          = cap0 * (yearTraj (Year.init i0 u0 cap0 th0) shocks t).deflator
      ∧ (yearTraj (Year.init i0 u0 cap0 th0) shocks t).isa_threshold
          = th0 * (yearTraj (Year.init i0 u0 cap0 th0) shocks t).deflator)
    ∧ ((simpleYearTraj (Year.init i0 u0 cap0 th0) shocks t).deflator
        = ∏ i in Finset.range t,
            (1 + (simpleYearTraj (Year.init i0 u0 cap0 th0) shocks (i + 1)).inflation_rate)
      ∧ (simpleYearTraj (Year.init i0 u0 cap0 th0) shocks t).isa_cap
          = cap0 * (simpleYearTraj (Year.init i0 u0 cap0 th0) shocks t).deflator
      ∧ (simpleYearTraj (Year.init i0 u0 cap0 th0) shocks t).isa_threshold
          = th0 * (simpleYearTraj (Year.init i0 u0 cap0 th0) shocks t).deflator) := by
  induction t with
  | zero =>
    refine ⟨⟨?_, ?_, ?_⟩, ?_, ?_, ?_⟩ <;> simp [yearTraj, simpleYearTraj, Year.init]
  | succ t ih =>
    obtain ⟨⟨hd, hc, ht⟩, hd', hc', ht'⟩ := ih
    refine ⟨⟨?_, ?_, ?_⟩, ?_, ?_, ?_⟩
    · rw [Finset.prod_range_succ, ← hd, yearTraj_succ]
      simp [Year.next_year, yearTraj_succ]
      try ring
    · rw [yearTraj_succ]
      simp [Year.next_year]
      rw [hc]
      try ring
    · rw [yearTraj_succ]
      simp [Year.next_year]
      rw [ht]
      try ring
    · rw [Finset.prod_range_succ, ← hd', simpleYearTraj_succ]
      simp [Simple.next_year, simpleYearTraj_succ]
      try ring
    · rw [simpleYearTraj_succ]
      simp [Simple.next_year]
      rw [hc']
      try ring
    · rw [simpleYearTraj_succ]
      simp [Simple.next_year]
      rw [ht']
      try ring

/-- **C8 counterexample.**  The claim asserts that every call to the
economic-state advance operation leaves the unemployment rate between 0.02
and 0.15.  The simple-model advance (`simple_isa_model.py` lines 49-57)
clamps unemployment to [0.02, 0.30], not [0.02, 0.15]: starting from
unemployment 0.30 (stable rate 0.30) with a lognormal shock of 0.05, one
call yields 0.224 > 0.15. -/
theorem simple_advance_exceeds_claimed_unemployment_bound :
    15/100 < (Simple.next_year
      { year_count := 1, inflation_rate := 2/100, stable_inflation_rate := 2/100,
        unemployment_rate := 30/100, stable_unemployment_rate := 30/100,
        isa_cap := 49500, isa_threshold := 27000, deflator := 1 }
      0 (5/100)).unemployment_rate := by
  norm_num [Simple.next_year]

/-- **C8 (amended).**  Every call to the economic-state advance operation
keeps the rates within that variant's clamp bounds, and advancing is a total
function with no error conditions: the impact-model advance
(`impact_isa_model.py`) clamps unemployment to [0.02, 0.15] and leaves its
inflation update bounded by `0.45|stable| + 0.5|inflation| + |shock|`;
the simple-model advance (`simple_isa_model.py`) clamps unemployment to
[0.02, 0.30] and inflation to [-0.02, 0.15]. -/
theorem advance_bounds (y : Year) (s u : ℚ) :
    (2/100 ≤ (y.next_year s u).unemployment_rate
      ∧ (y.next_year s u).unemployment_rate ≤ 15/100)
    ∧ (2/100 ≤ (Simple.next_year y s u).unemployment_rate
      ∧ (Simple.next_year y s u).unemployment_rate ≤ 30/100)
    ∧ (-(2/100) ≤ (Simple.next_year y s u).inflation_rate
      ∧ (Simple.next_year y s u).inflation_rate ≤ 15/100)
    ∧ |(y.next_year s u).inflation_rate|
        ≤ |y.stable_inflation_rate| * (45/100) + |y.inflation_rate| * (1/2) + |s| := by
  refine ⟨⟨le_max_left _ _, ?_⟩, ⟨le_max_left _ _, ?_⟩, ⟨le_max_left _ _, ?_⟩, ?_⟩
  · exact max_le (by norm_num) (min_le_left _ _)
  · exact max_le (by norm_num) (min_le_left _ _)
  · exact max_le (by norm_num) (min_le_left _ _)
  · show |y.stable_inflation_rate * (45/100) + y.inflation_rate * (1/2) + s| ≤ _
    calc |y.stable_inflation_rate * (45/100) + y.inflation_rate * (1/2) + s|
        ≤ |y.stable_inflation_rate * (45/100) + y.inflation_rate * (1/2)| + |s| :=
          abs_add _ _
      _ ≤ |y.stable_inflation_rate * (45/100)| + |y.inflation_rate * (1/2)| + |s| := by
          have := abs_add (y.stable_inflation_rate * (45/100)) (y.inflation_rate * (1/2))
          linarith
      _ = |y.stable_inflation_rate| * (45/100) + |y.inflation_rate| * (1/2) + |s| := by
          rw [abs_mul, abs_mul,
            abs_of_nonneg (by norm_num : (0:ℚ) ≤ 45/100),
            abs_of_nonneg (by norm_num : (0:ℚ) ≤ 1/2)]

/-- If every contract matching `sid` is inactive, the search loop finds
nothing and returns the list unchanged. -/
theorem markFirstActive_all_inactive (l : List Contract) (sid : ℕ) (reason : ExitReason)
    (h : ∀ c ∈ l, c.student_id = sid → c.is_active = false) :
    markFirstActive l sid reason = (l, false) := by
  induction l with
  | nil => rfl
  | cons c cs ih =>
    have hc : ¬(c.student_id = sid ∧ c.is_active = true) := by
      rintro ⟨h1, h2⟩
      have := h c (List.mem_cons_self c cs) h1
      rw [this] at h2
      exact Bool.false_ne_true h2
    simp only [markFirstActive, if_neg hc]
    rw [ih (fun d hd => h d (List.mem_cons_of_mem c hd))]

/-- **C3.**  `InvestmentPool.invest(amount, start_year, num_years)` succeeds
if and only if `available_funds ≥ amount`; on success it appends exactly one
new contract, increments `total_contracts` and deducts `amount` from
`available_funds`; on failure it returns `false` and leaves the pool —
in particular `available_funds` and the contract list — unchanged. -/
theorem invest_succeeds_iff_funds (p : InvestmentPool) (amount start_year : ℚ)
    (num_years : ℕ) :
    ((p.invest amount start_year num_years).1 = true ↔ amount ≤ p.available_funds)
    ∧ (p.invest amount start_year num_years).2
        = if amount ≤ p.available_funds then
            { p with
              available_funds := p.available_funds - amount
              contracts := p.contracts ++ [Contract.make p.contracts.length start_year num_years]
              contract_metrics :=
                { p.contract_metrics with
                  total_contracts := p.contract_metrics.total_contracts + 1 } }
          else p := by
  unfold InvestmentPool.invest
  by_cases h : amount ≤ p.available_funds
  · rw [if_pos h, if_pos h]
    simp [h]
  · rw [if_neg h, if_neg h]
    simp [h]

/-- **C5.**  Marking a contract's exit is idempotent: when every contract
carrying the given `student_id` is already inactive (in a run the ids are
unique, so this is exactly "the contract is already inactive"), a second
`mark_contract_exit` call is a no-op — no per-reason counter, no
`exit_reason`, and no other pool state changes. -/
theorem mark_contract_exit_idempotent (p : InvestmentPool) (sid : ℕ) (reason : ExitReason)
    (h : ∀ c ∈ p.contracts, c.student_id = sid → c.is_active = false) :
    p.mark_contract_exit sid reason = p := by
  unfold InvestmentPool.mark_contract_exit
  rw [markFirstActive_all_inactive p.contracts sid reason h]
  simp

/-- Witness for C5: a pool holding one already-inactive contract is left
untouched by a second exit-marking call. -/
theorem mark_contract_exit_idempotent_witness :
    (∀ c ∈ poolWithInactiveContract.contracts, c.student_id = 0 → c.is_active = false)
    ∧ poolWithInactiveContract.mark_contract_exit 0 ExitReason.default
        = poolWithInactiveContract :=
  ⟨by decide, mark_contract_exit_idempotent poolWithInactiveContract 0 ExitReason.default
    (by decide)⟩

/-- **C10.**  When `invest` succeeds, the created contract has
`student_id = len(contracts so far)`, `purchase_price = start_year` (the
second positional argument), `remaining_payments = num_years`, and — via
`__post_init__` — `current_value = purchase_price = start_year`; the
invested `amount` is deducted from `available_funds` but appears in no field
of the contract. -/
theorem invest_stores_start_year_as_price (p : InvestmentPool) (amount start_year : ℚ)
    (num_years : ℕ) (h : amount ≤ p.available_funds) :
    (p.invest amount start_year num_years).1 = true
    ∧ (p.invest amount start_year num_years).2.contracts
        = p.contracts ++
            [{ student_id := p.contracts.length, purchase_price := start_year,
               remaining_payments := num_years, total_payments := 0,
               current_value := start_year, is_active := true, exit_reason := none }]
    ∧ (p.invest amount start_year num_years).2.available_funds
        = p.available_funds - amount
    ∧ (p.invest amount start_year num_years).2.contract_metrics.total_contracts
        = p.contract_metrics.total_contracts + 1 := by
  unfold InvestmentPool.invest
  rw [if_pos h]
  exact ⟨rfl, rfl, rfl, rfl⟩

/-- Witness for C10: investing 16650 at start year 3 into a fresh pool of
100000 creates the contract `⟨0, 3, 20, 0, 3, active, none⟩` — its
`current_value` is the start year 3, not the 16650 paid. -/
theorem invest_stores_start_year_as_price_witness :
    (16650 : ℚ) ≤ (InvestmentPool.init 100000 49500).available_funds
    ∧ ((InvestmentPool.init 100000 49500).invest 16650 3 20).1 = true
    ∧ ((InvestmentPool.init 100000 49500).invest 16650 3 20).2.contracts
        = (InvestmentPool.init 100000 49500).contracts ++
            [{ student_id := (InvestmentPool.init 100000 49500).contracts.length,
               purchase_price := 3, remaining_payments := 20, total_payments := 0,
               current_value := 3, is_active := true, exit_reason := none }]
    ∧ ((InvestmentPool.init 100000 49500).invest 16650 3 20).2.available_funds
        = (InvestmentPool.init 100000 49500).available_funds - 16650
    ∧ ((InvestmentPool.init 100000 49500).invest 16650 3 20).2.contract_metrics.total_contracts
        = (InvestmentPool.init 100000 49500).contract_metrics.total_contracts + 1 := by
  refine ⟨by decide, ?_⟩
  exact invest_stores_start_year_as_price (InvestmentPool.init 100000 49500) 16650 3 20
    (by decide)

theorem markFirstActive_sid_map (l : List Contract) (sid : ℕ) (reason : ExitReason) :
    (markFirstActive l sid reason).1.map (fun c => c.student_id)
      = l.map (fun c => c.student_id) := by
  induction l with
  | nil => rfl
  | cons c cs ih =>
    by_cases h : c.student_id = sid ∧ c.is_active = true
    · simp only [markFirstActive, if_pos h, List.map_cons]
      rfl
    · simp only [markFirstActive, if_neg h, List.map_cons, ih]

theorem markFirstActive_length (l : List Contract) (sid : ℕ) (reason : ExitReason) :
    (markFirstActive l sid reason).1.length = l.length := by
  have := congrArg List.length (markFirstActive_sid_map l sid reason)
  simpa using this

theorem markFirstActive_countP (l : List Contract) (sid : ℕ) (reason : ExitReason) :
    (markFirstActive l sid reason).1.countP (fun c => !c.is_active)
      = l.countP (fun c => !c.is_active)
        + (if (markFirstActive l sid reason).2 then 1 else 0) := by
  induction l with
  | nil => rfl
  | cons c cs ih =>
    by_cases h : c.student_id = sid ∧ c.is_active = true
    · simp only [markFirstActive, if_pos h]
      simp [List.countP_cons, Contract.mark_exit, h.2]
      try omega
    · simp only [markFirstActive, if_neg h]
      simp only [List.countP_cons]
      rw [ih]
      omega

theorem markFirstActive_ids (l : List Contract) (sid : ℕ) (reason : ExitReason)
    (hids : ∀ (i : ℕ) (c : Contract), l[i]? = some c → c.student_id = i) :
    ∀ (i : ℕ) (c : Contract), (markFirstActive l sid reason).1[i]? = some c
      → c.student_id = i := by
  intro i c hc
  have hmap := markFirstActive_sid_map l sid reason
  have h1 : ((markFirstActive l sid reason).1.map (fun c => c.student_id))[i]?
      = (l.map (fun c => c.student_id))[i]? := by rw [hmap]
  rw [List.getElem?_map, List.getElem?_map, hc] at h1
  match hl : l[i]? with
  | none => rw [hl] at h1; simp at h1
  | some d =>
    rw [hl] at h1
    simp only [Option.map_some', Option.some.injEq] at h1
    have := hids i d hl
    omega

theorem markFirstActive_not_found (l : List Contract) (sid : ℕ) (reason : ExitReason)
    (h : (markFirstActive l sid reason).2 = false) :
    (markFirstActive l sid reason).1 = l := by
  induction l with
  | nil => rfl
  | cons c cs ih =>
    by_cases hc : c.student_id = sid ∧ c.is_active = true
    · simp only [markFirstActive, if_pos hc] at h
      exact absurd h (by simp)
    · simp only [markFirstActive, if_neg hc] at h ⊢
      rw [ih h]

theorem markFirstActive_pointwise (l : List Contract) (sid : ℕ) (reason : ExitReason)
    (i : ℕ) (c : Contract)
    (hi : l[i]? = some c) (hsid : c.student_id = sid) (hact : c.is_active = true)
    (huniq : ∀ (j : ℕ) (d : Contract), l[j]? = some d → j ≠ i → d.student_id ≠ sid) :
    (markFirstActive l sid reason).2 = true
    ∧ (markFirstActive l sid reason).1[i]? = some (c.mark_exit reason)
    ∧ ∀ (j : ℕ), j ≠ i → (markFirstActive l sid reason).1[j]? = l[j]? := by
  induction l generalizing i with
  | nil => simp at hi
  | cons d ds ih =>
    cases i with
    | zero =>
      rw [List.getElem?_cons_zero] at hi
      injection hi with hi
      subst hi
      have hcond : d.student_id = sid ∧ d.is_active = true := ⟨hsid, hact⟩
      simp only [markFirstActive, if_pos hcond]
      refine ⟨by simp, by simp, ?_⟩
      intro j hj
      match j, hj with
      | k + 1, _ => rw [List.getElem?_cons_succ, List.getElem?_cons_succ]
    | succ k =>
      rw [List.getElem?_cons_succ] at hi
      have hd : ¬(d.student_id = sid ∧ d.is_active = true) := by
        intro hcon
        exact (huniq 0 d (by rw [List.getElem?_cons_zero]) (by omega)) hcon.1
      have huniq' : ∀ (j : ℕ) (e : Contract), ds[j]? = some e → j ≠ k
          → e.student_id ≠ sid := by
        intro j e hj hjk
        exact huniq (j + 1) e (by rw [List.getElem?_cons_succ]; exact hj) (by omega)
      obtain ⟨ih1, ih2, ih3⟩ := ih k hi huniq'
      simp only [markFirstActive, if_neg hd]
      refine ⟨ih1, ?_, ?_⟩
      · rw [List.getElem?_cons_succ]
        exact ih2
      · intro j hj
        match j with
        | 0 => rw [List.getElem?_cons_zero, List.getElem?_cons_zero]
        | m + 1 =>
          rw [List.getElem?_cons_succ, List.getElem?_cons_succ]
          exact ih3 m (by omega)

theorem markFirstActive_frozen (l : List Contract) (sid : ℕ) (reason : ExitReason)
    (j : ℕ) (c : Contract) (hj : l[j]? = some c) (hc : c.is_active = false) :
    (markFirstActive l sid reason).1[j]? = some c := by
  induction l generalizing j with
  | nil => simp at hj
  | cons d ds ih =>
    by_cases h : d.student_id = sid ∧ d.is_active = true
    · simp only [markFirstActive, if_pos h]
      match j with
      | 0 =>
        rw [List.getElem?_cons_zero] at hj
        injection hj with hj
        subst hj
        rw [h.2] at hc
        exact absurd hc (by simp)
      | k + 1 =>
        rw [List.getElem?_cons_succ] at hj
        rw [List.getElem?_cons_succ]
        exact hj
    · simp only [markFirstActive, if_neg h]
      match j with
      | 0 =>
        rw [List.getElem?_cons_zero] at hj
        rw [List.getElem?_cons_zero]
        exact hj
      | k + 1 =>
        rw [List.getElem?_cons_succ] at hj
        rw [List.getElem?_cons_succ]
        exact ih k hj

theorem recordFirstActive_shape (l : List Contract) (sid : ℕ) (amount : ℚ) :
    (recordFirstActive l sid amount).map (fun c => (c.student_id, c.is_active))
      = l.map (fun c => (c.student_id, c.is_active)) := by
  induction l with
  | nil => rfl
  | cons c cs ih =>
    by_cases h : c.student_id = sid ∧ c.is_active = true
    · simp only [recordFirstActive, if_pos h, List.map_cons]
      rfl
    · simp only [recordFirstActive, if_neg h, List.map_cons, ih]

theorem recordFirstActive_length (l : List Contract) (sid : ℕ) (amount : ℚ) :
    (recordFirstActive l sid amount).length = l.length := by
  have := congrArg List.length (recordFirstActive_shape l sid amount)
  simpa using this

theorem recordFirstActive_countP (l : List Contract) (sid : ℕ) (amount : ℚ) :
    (recordFirstActive l sid amount).countP (fun c => !c.is_active)
      = l.countP (fun c => !c.is_active) := by
  induction l with
  | nil => rfl
  | cons c cs ih =>
    by_cases h : c.student_id = sid ∧ c.is_active = true
    · simp only [recordFirstActive, if_pos h, List.countP_cons]
      have hh : (c.record_payment amount).is_active = c.is_active := rfl
      rw [hh]
    · simp only [recordFirstActive, if_neg h, List.countP_cons, ih]

theorem recordFirstActive_ids (l : List Contract) (sid : ℕ) (amount : ℚ)
    (hids : ∀ (i : ℕ) (c : Contract), l[i]? = some c → c.student_id = i) :
    ∀ (i : ℕ) (c : Contract), (recordFirstActive l sid amount)[i]? = some c
      → c.student_id = i := by
  intro i c hc
  have hmap := recordFirstActive_shape l sid amount
  have h1 : ((recordFirstActive l sid amount).map (fun c => (c.student_id, c.is_active)))[i]?
      = (l.map (fun c => (c.student_id, c.is_active)))[i]? := by rw [hmap]
  rw [List.getElem?_map, List.getElem?_map, hc] at h1
  match hl : l[i]? with
  | none => rw [hl] at h1; simp at h1
  | some d =>
    rw [hl] at h1
    simp only [Option.map_some', Option.some.injEq, Prod.mk.injEq] at h1
    have := hids i d hl
    omega

theorem recordFirstActive_frozen (l : List Contract) (sid : ℕ) (amount : ℚ)
    (j : ℕ) (c : Contract) (hj : l[j]? = some c) (hc : c.is_active = false) :
    (recordFirstActive l sid amount)[j]? = some c := by
  induction l generalizing j with
  | nil => simp at hj
  | cons d ds ih =>
    by_cases h : d.student_id = sid ∧ d.is_active = true
    · simp only [recordFirstActive, if_pos h]
      match j with
      | 0 =>
        rw [List.getElem?_cons_zero] at hj
        injection hj with hj
        subst hj
        rw [h.2] at hc
        exact absurd hc (by simp)
      | k + 1 =>
        rw [List.getElem?_cons_succ] at hj
        rw [List.getElem?_cons_succ]
        exact hj
    · simp only [recordFirstActive, if_neg h]
      match j with
      | 0 =>
        rw [List.getElem?_cons_zero] at hj
        rw [List.getElem?_cons_zero]
        exact hj
      | k + 1 =>
        rw [List.getElem?_cons_succ] at hj
        rw [List.getElem?_cons_succ]
        exact ih k hj

theorem exitSum_incrementExit (m : ContractMetrics) (reason : ExitReason) :
    (m.incrementExit reason).exitSum = m.exitSum + 1 := by
  cases reason <;> simp [ContractMetrics.incrementExit, ContractMetrics.exitSum] <;> omega

theorem total_incrementExit (m : ContractMetrics) (reason : ExitReason) :
    (m.incrementExit reason).total_contracts = m.total_contracts := by
  cases reason <;> rfl

theorem poolWF_init (initial_amount isa_cap : ℚ) :
    poolWF (InvestmentPool.init initial_amount isa_cap) := by
  refine ⟨rfl, rfl, ?_⟩
  intro i c hc
  simp [InvestmentPool.init] at hc

theorem poolWF_invest (p : InvestmentPool) (amount start_year : ℚ) (num_years : ℕ)
    (h : poolWF p) : poolWF (p.invest amount start_year num_years).2 := by
  obtain ⟨h1, h2, h3⟩ := h
  unfold InvestmentPool.invest
  by_cases hf : amount ≤ p.available_funds
  · rw [if_pos hf]
    refine ⟨?_, ?_, ?_⟩
    · simp [h1]
    · show p.contract_metrics.exitSum
        = List.countP (fun c => !c.is_active)
            (p.contracts ++ [Contract.make p.contracts.length start_year num_years])
      rw [h2, List.countP_append]
      simp [Contract.make]
    · intro i c hi
      simp only at hi
      rw [List.getElem?_append] at hi
      by_cases hlt : i < p.contracts.length
      · rw [if_pos hlt] at hi
        exact h3 i c hi
      · rw [if_neg hlt] at hi
        cases hk : i - p.contracts.length with
        | zero =>
          rw [hk] at hi
          simp only [List.getElem?_cons_zero, Option.some.injEq] at hi
          rw [← hi]
          show p.contracts.length = i
          omega
        | succ k =>
          rw [hk] at hi
          simp at hi
  · rw [if_neg hf]
    exact ⟨h1, h2, h3⟩

theorem poolWF_add_student (p : InvestmentPool) (s : Student) (h : poolWF p) :
    poolWF (p.add_student s) := h

theorem poolWF_receive_payment (p : InvestmentPool) (amount : ℚ) (h : poolWF p) :
    poolWF (p.receive_payment amount) := h

theorem poolWF_end_year (p : InvestmentPool) (h : poolWF p) :
    poolWF (p.end_year).2 := h

theorem poolWF_mark_contract_exit (p : InvestmentPool) (sid : ℕ) (reason : ExitReason)
    (h : poolWF p) : poolWF (p.mark_contract_exit sid reason) := by
  obtain ⟨h1, h2, h3⟩ := h
  refine ⟨?_, ?_, ?_⟩
  · show (if (markFirstActive p.contracts sid reason).2 then
        p.contract_metrics.incrementExit reason else p.contract_metrics).total_contracts
      = (markFirstActive p.contracts sid reason).1.length
    by_cases hf : (markFirstActive p.contracts sid reason).2
    · rw [if_pos hf, total_incrementExit, markFirstActive_length, h1]
    · rw [if_neg hf, markFirstActive_length, h1]
  · show (if (markFirstActive p.contracts sid reason).2 then
        p.contract_metrics.incrementExit reason else p.contract_metrics).exitSum
      = (markFirstActive p.contracts sid reason).1.countP (fun c => !c.is_active)
    rw [markFirstActive_countP]
    by_cases hf : (markFirstActive p.contracts sid reason).2
    · rw [if_pos hf, exitSum_incrementExit, h2, if_pos hf]
    · rw [if_neg hf, h2, if_neg hf]
      omega
  · exact markFirstActive_ids p.contracts sid reason h3

theorem poolWF_apply (p : InvestmentPool) (op : PoolOp) (h : poolWF p) :
    poolWF (PoolOp.apply p op) := by
  cases op with
  | investOp amount start_year num_years => exact poolWF_invest p amount start_year num_years h
  | addStudentOp s => exact poolWF_add_student p s h
  | receivePaymentOp amount => exact poolWF_receive_payment p amount h
  | markExitOp sid reason => exact poolWF_mark_contract_exit p sid reason h
  | recordPaymentOp sid amount =>
    obtain ⟨h1, h2, h3⟩ := h
    refine ⟨?_, ?_, ?_⟩
    · show p.contract_metrics.total_contracts = (recordFirstActive p.contracts sid amount).length
      rw [recordFirstActive_length, h1]
    · show p.contract_metrics.exitSum
        = (recordFirstActive p.contracts sid amount).countP (fun c => !c.is_active)
      rw [recordFirstActive_countP, h2]
    · exact recordFirstActive_ids p.contracts sid amount h3
  | endYearOp => exact poolWF_end_year p h

theorem poolWF_applyOps (p : InvestmentPool) (ops : List PoolOp) (h : poolWF p) :
    poolWF (applyOps p ops) := by
  induction ops generalizing p with
  | nil => exact h
  | cons op ops ih => exact ih (PoolOp.apply p op) (poolWF_apply p op h)

theorem sweepStep_poolWF (q : InvestmentPool) (k : ℕ) (h : poolWF q) :
    poolWF (sweepStep q k) := by
  cases hq : q.contracts[k]? with
  | none =>
    simp only [sweepStep, hq]
    exact h
  | some c =>
    simp only [sweepStep, hq]
    by_cases hact : c.is_active = true
    · rw [if_pos hact]
      exact poolWF_mark_contract_exit q c.student_id (sweepReason q c) h
    · rw [if_neg hact]
      exact h

theorem sweepStep_length (q : InvestmentPool) (k : ℕ) :
    (sweepStep q k).contracts.length = q.contracts.length := by
  cases hq : q.contracts[k]? with
  | none => simp only [sweepStep, hq]
  | some c =>
    simp only [sweepStep, hq]
    by_cases hact : c.is_active = true
    · rw [if_pos hact]
      exact markFirstActive_length q.contracts c.student_id (sweepReason q c)
    · rw [if_neg hact]

theorem sweepStep_marks (q : InvestmentPool) (k : ℕ)
    (hids : ∀ (i : ℕ) (c : Contract), q.contracts[i]? = some c → c.student_id = i)
    (hlow : ∀ (j : ℕ) (c : Contract), j < k → q.contracts[j]? = some c
      → c.is_active = false) :
    ∀ (j : ℕ) (c : Contract), j < k + 1 → (sweepStep q k).contracts[j]? = some c
      → c.is_active = false := by
  intro j c hj hsome
  cases hq : q.contracts[k]? with
  | none =>
    simp only [sweepStep, hq] at hsome
    by_cases hjk : j = k
    · subst hjk
      rw [hsome] at hq
      exact absurd hq (by simp)
    · exact hlow j c (by omega) hsome
  | some c0 =>
    simp only [sweepStep, hq] at hsome
    by_cases hact : c0.is_active = true
    · rw [if_pos hact] at hsome
      have hsid : c0.student_id = k := hids k c0 hq
      have huniq : ∀ (i : ℕ) (d : Contract), q.contracts[i]? = some d → i ≠ k
          → d.student_id ≠ c0.student_id := by
        intro i d hd hik
        have := hids i d hd
        omega
      obtain ⟨_, hk, hothers⟩ := markFirstActive_pointwise q.contracts c0.student_id
        (sweepReason q c0) k c0 hq rfl hact huniq
      have hsome2 : (markFirstActive q.contracts c0.student_id (sweepReason q c0)).1[j]?
          = some c := hsome
      by_cases hjk : j = k
      · subst hjk
        rw [hk] at hsome2
        injection hsome2 with hsome2
        rw [← hsome2]
        rfl
      · rw [hothers j hjk] at hsome2
        exact hlow j c (by omega) hsome2
    · rw [if_neg hact] at hsome
      by_cases hjk : j = k
      · subst hjk
        rw [hsome] at hq
        injection hq with hq
        rw [hq]
        exact Bool.not_eq_true c0.is_active ▸ hact
      · exact hlow j c (by omega) hsome

theorem sweep_partial (p : InvestmentPool) (h : poolWF p) (k : ℕ) :
    poolWF ((List.range k).foldl sweepStep p)
    ∧ ((List.range k).foldl sweepStep p).contracts.length = p.contracts.length
    ∧ ∀ (j : ℕ) (c : Contract), j < k
      → ((List.range k).foldl sweepStep p).contracts[j]? = some c
      → c.is_active = false := by
  induction k with
  | zero =>
    refine ⟨h, rfl, ?_⟩
    intro j c hj
    omega
  | succ k ih =>
    obtain ⟨ihWF, ihlen, ihlow⟩ := ih
    have hstep : (List.range (k + 1)).foldl sweepStep p
        = sweepStep ((List.range k).foldl sweepStep p) k := by
      rw [List.range_succ, List.foldl_append]
      rfl
    rw [hstep]
    refine ⟨sweepStep_poolWF _ k ihWF, ?_, ?_⟩
    · rw [sweepStep_length, ihlen]
    · exact sweepStep_marks _ k ihWF.2.2 ihlow

/-- **C1.**  For every run — modelled as an arbitrary sequence of pool
operations starting from a freshly initialised pool, exactly the operations
`simulate_impact` performs — after the end-of-horizon sweep
`mark_remaining_as_defaulted`, the sum of the pool's per-exit-reason
counters (`payment_cap_exits + years_cap_exits + home_return_exits +
default_exits`) equals the pool's `total_contracts` counter.  This is the
invariant asserted at `impact_isa_model.py` lines 1242-1244. -/
theorem sum_exit_counts_eq_total_contracts (initial_amount isa_cap : ℚ)
    (ops : List PoolOp) :
    ((applyOps (InvestmentPool.init initial_amount isa_cap) ops).mark_remaining_as_defaulted).contract_metrics.exitSum
      = ((applyOps (InvestmentPool.init initial_amount isa_cap) ops).mark_remaining_as_defaulted).contract_metrics.total_contracts := by
  have hWF : poolWF (applyOps (InvestmentPool.init initial_amount isa_cap) ops) :=
    poolWF_applyOps _ ops (poolWF_init initial_amount isa_cap)
  set p := applyOps (InvestmentPool.init initial_amount isa_cap) ops with hp
  obtain ⟨⟨hTot, hSum, _⟩, hLen, hLow⟩ := sweep_partial p hWF p.contracts.length
  show (InvestmentPool.mark_remaining_as_defaulted p).contract_metrics.exitSum
    = (InvestmentPool.mark_remaining_as_defaulted p).contract_metrics.total_contracts
  unfold InvestmentPool.mark_remaining_as_defaulted
  rw [hSum, hTot]
  have hall : ∀ c ∈ ((List.range p.contracts.length).foldl sweepStep p).contracts,
      (!c.is_active) = true := by
    intro c hc
    obtain ⟨i, hi, hget⟩ := List.mem_iff_getElem.mp hc
    have hi' : ((List.range p.contracts.length).foldl sweepStep p).contracts[i]? = some c := by
      rw [List.getElem?_eq_getElem hi, hget]
    have : c.is_active = false := hLow i c (by rw [← hLen]; exact hi) hi'
    rw [this]
    rfl
  rw [List.countP_eq_length.mpr hall]

theorem sweepStep_ids (q : InvestmentPool) (k : ℕ)
    (hids : ∀ (i : ℕ) (c : Contract), q.contracts[i]? = some c → c.student_id = i) :
    ∀ (i : ℕ) (c : Contract), (sweepStep q k).contracts[i]? = some c → c.student_id = i := by
  cases hq : q.contracts[k]? with
  | none => simpa only [sweepStep, hq] using hids
  | some c0 =>
    by_cases hact : c0.is_active = true
    · intro i c hc
      simp only [sweepStep, hq, if_pos hact] at hc
      exact markFirstActive_ids q.contracts c0.student_id (sweepReason q c0) hids i c hc
    · simpa only [sweepStep, hq, if_neg hact] using hids

theorem sweepStep_students (q : InvestmentPool) (k : ℕ) :
    (sweepStep q k).students = q.students := by
  cases hq : q.contracts[k]? with
  | none => simp only [sweepStep, hq]
  | some c0 =>
    by_cases hact : c0.is_active = true
    · simp only [sweepStep, hq, if_pos hact]
      rfl
    · simp only [sweepStep, hq, if_neg hact]

theorem sweepStep_isa_cap (q : InvestmentPool) (k : ℕ) :
    (sweepStep q k).isa_cap = q.isa_cap := by
  cases hq : q.contracts[k]? with
  | none => simp only [sweepStep, hq]
  | some c0 =>
    by_cases hact : c0.is_active = true
    · simp only [sweepStep, hq, if_pos hact]
      rfl
    · simp only [sweepStep, hq, if_neg hact]

theorem sweepStep_other (q : InvestmentPool) (k i : ℕ) (hne : i ≠ k)
    (hids : ∀ (j : ℕ) (c : Contract), q.contracts[j]? = some c → c.student_id = j) :
    (sweepStep q k).contracts[i]? = q.contracts[i]? := by
  cases hq : q.contracts[k]? with
  | none => simp only [sweepStep, hq]
  | some c0 =>
    by_cases hact : c0.is_active = true
    · simp only [sweepStep, hq, if_pos hact]
      have hsid : c0.student_id = k := hids k c0 hq
      have huniq : ∀ (j : ℕ) (d : Contract), q.contracts[j]? = some d → j ≠ k
          → d.student_id ≠ c0.student_id := by
        intro j d hd hjk
        have := hids j d hd
        omega
      obtain ⟨_, _, hothers⟩ := markFirstActive_pointwise q.contracts c0.student_id
        (sweepReason q c0) k c0 hq rfl hact huniq
      exact hothers i hne
    · simp only [sweepStep, hq, if_neg hact]

theorem sweepStep_at (q : InvestmentPool) (i : ℕ) (c : Contract)
    (hids : ∀ (j : ℕ) (d : Contract), q.contracts[j]? = some d → d.student_id = j)
    (hq : q.contracts[i]? = some c) (hact : c.is_active = true) :
    (sweepStep q i).contracts[i]? = some (c.mark_exit (sweepReason q c)) := by
  simp only [sweepStep, hq, if_pos hact]
  have hsid : c.student_id = i := hids i c hq
  have huniq : ∀ (j : ℕ) (d : Contract), q.contracts[j]? = some d → j ≠ i
      → d.student_id ≠ c.student_id := by
    intro j d hd hji
    have := hids j d hd
    omega
  obtain ⟨_, hk, _⟩ := markFirstActive_pointwise q.contracts c.student_id
    (sweepReason q c) i c hq rfl hact huniq
  exact hk

theorem sweepFold_succ (p : InvestmentPool) (k : ℕ) :
    (List.range (k + 1)).foldl sweepStep p
      = sweepStep ((List.range k).foldl sweepStep p) k := by
  rw [List.range_succ, List.foldl_append]
  rfl

theorem sweepFold_ids (p : InvestmentPool)
    (hids : ∀ (i : ℕ) (c : Contract), p.contracts[i]? = some c → c.student_id = i)
    (k : ℕ) :
    ∀ (i : ℕ) (c : Contract), ((List.range k).foldl sweepStep p).contracts[i]? = some c
      → c.student_id = i := by
  induction k with
  | zero => exact hids
  | succ k ih =>
    rw [sweepFold_succ]
    exact sweepStep_ids _ k ih

theorem sweepFold_students (p : InvestmentPool) (k : ℕ) :
    ((List.range k).foldl sweepStep p).students = p.students := by
  induction k with
  | zero => rfl
  | succ k ih =>
    rw [sweepFold_succ, sweepStep_students, ih]

theorem sweepFold_isa_cap (p : InvestmentPool) (k : ℕ) :
    ((List.range k).foldl sweepStep p).isa_cap = p.isa_cap := by
  induction k with
  | zero => rfl
  | succ k ih =>
    rw [sweepFold_succ, sweepStep_isa_cap, ih]

theorem sweepFold_stable (p : InvestmentPool)
    (hids : ∀ (i : ℕ) (c : Contract), p.contracts[i]? = some c → c.student_id = i)
    (i : ℕ) :
    ∀ k, k ≤ i → ((List.range k).foldl sweepStep p).contracts[i]? = p.contracts[i]? := by
  intro k
  induction k with
  | zero => intro _; rfl
  | succ k ih =>
    intro hk
    rw [sweepFold_succ, sweepStep_other _ k i (by omega) (sweepFold_ids p hids k)]
    exact ih (by omega)

theorem sweepReason_congr (q p : InvestmentPool) (c : Contract)
    (hs : q.students = p.students) (hcap : q.isa_cap = p.isa_cap) :
    sweepReason q c = sweepReason p c := by
  unfold sweepReason
  rw [hs, hcap]

/-- Every contract still active when `mark_remaining_as_defaulted` runs ends
up marked with the reason `sweepReason` computes for it (provided contract
ids equal list positions, as `invest` guarantees). -/
theorem sweep_resolves (p : InvestmentPool)
    (hids : ∀ (i : ℕ) (c : Contract), p.contracts[i]? = some c → c.student_id = i)
    (i : ℕ) (c : Contract) (hi : p.contracts[i]? = some c) (hact : c.is_active = true) :
    (p.mark_remaining_as_defaulted).contracts[i]? = some (c.mark_exit (sweepReason p c)) := by
  have hlen : i < p.contracts.length := by
    by_contra hcon
    rw [List.getElem?_eq_none (by omega)] at hi
    exact absurd hi (by simp)
  have main : ∀ m, ((List.range (i + 1 + m)).foldl sweepStep p).contracts[i]?
      = some (c.mark_exit (sweepReason p c)) := by
    intro m
    induction m with
    | zero =>
      rw [sweepFold_succ]
      have hqi := sweepFold_stable p hids i i le_rfl
      rw [hi] at hqi
      rw [sweepStep_at _ i c (sweepFold_ids p hids i) hqi hact,
        sweepReason_congr _ p c (sweepFold_students p i) (sweepFold_isa_cap p i)]
    | succ m ih =>
      have harith : i + 1 + (m + 1) = (i + 1 + m) + 1 := by omega
      rw [harith, sweepFold_succ,
        sweepStep_other _ (i + 1 + m) i (by omega) (sweepFold_ids p hids (i + 1 + m))]
      exact ih
  have hn : i + 1 + (p.contracts.length - i - 1) = p.contracts.length := by omega
  have hfin := main (p.contracts.length - i - 1)
  rw [hn] at hfin
  exact hfin

/-- **C4.**  At the end-of-horizon sweep, every still-active contract is
resolved to exactly one exit reason by the fixed priority policy of the
claim: cumulative payments ≥ 50% of the cap ⇒ `years_cap`; otherwise the
student is home ⇒ `home_return`; otherwise `default`.  The hypotheses state
facts that hold in every run: contract ids equal list positions (`invest`),
and a graduated student who will return home has already been marked home
by `calculate_earnings` — which makes the code's additional
`is_graduated and will_return_home` branch unreachable, so the code's
four-way branch coincides with the claimed three-way policy. -/
theorem sweep_fixed_priority_policy (p : InvestmentPool)
    (hids : ∀ (i : ℕ) (c : Contract), p.contracts[i]? = some c → c.student_id = i)
    (hhome : ∀ s ∈ p.students, s.is_graduated = true → s.will_return_home = true
      → s.is_home = true)
    (i : ℕ) (c : Contract) (hi : p.contracts[i]? = some c) (hact : c.is_active = true)
    (s : Student) (hs : p.students.find? (fun t => t.id == c.student_id) = some s) :
    ∃ cf : Contract, (p.mark_remaining_as_defaulted).contracts[i]? = some cf
      ∧ cf.is_active = false
      ∧ cf.exit_reason = some
          (if p.isa_cap * (1/2) ≤ s.payments.sum then ExitReason.years_cap
           else if s.is_home = true then ExitReason.home_return
           else ExitReason.default) := by
  refine ⟨c.mark_exit (sweepReason p c), sweep_resolves p hids i c hi hact, rfl, ?_⟩
  show some (sweepReason p c) = _
  have hr : sweepReason p c
      = if p.isa_cap * (1/2) ≤ s.payments.sum then ExitReason.years_cap
        else if s.is_home = true then ExitReason.home_return
        else if s.is_graduated = true ∧ s.will_return_home = true then ExitReason.home_return
        else ExitReason.default := by
    unfold sweepReason
    rw [hs]
  rw [hr]
  by_cases h1 : p.isa_cap * (1/2) ≤ s.payments.sum
  · rw [if_pos h1, if_pos h1]
  · rw [if_neg h1, if_neg h1]
    by_cases h2 : s.is_home = true
    · rw [if_pos h2, if_pos h2]
    · rw [if_neg h2, if_neg h2]
      have h3 : ¬(s.is_graduated = true ∧ s.will_return_home = true) := by
        rintro ⟨hg, hw⟩
        exact h2 (hhome s (List.mem_of_find?_eq_some hs) hg hw)
      rw [if_neg h3]

theorem updateEmployment_is_employed (y : Year) (d : Bool) (s : Student)
    (hu : y.unemployment_rate < 1) :
    (s.updateEmployment y d).is_employed = d := by
  simp only [Student.updateEmployment, if_pos hu]
  split_ifs <;> rfl

theorem updateEmployment_earnings_power (y : Year) (d : Bool) (s : Student) :
    (s.updateEmployment y d).earnings_power = s.earnings_power := by
  simp only [Student.updateEmployment]
  split_ifs <;> rfl

theorem updateEmployment_degree (y : Year) (d : Bool) (s : Student) :
    (s.updateEmployment y d).degree = s.degree := by
  simp only [Student.updateEmployment]
  split_ifs <;> rfl

theorem updateEmployment_actual (y : Year) (d : Bool) (s : Student) :
    (s.updateEmployment y d).actual_years_to_complete = s.actual_years_to_complete := by
  simp only [Student.updateEmployment]
  split_ifs <;> rfl

theorem updateEmployment_german (y : Year) (d : Bool) (s : Student) :
    (s.updateEmployment y d).german_learning_years = s.german_learning_years := by
  simp only [Student.updateEmployment]
  split_ifs <;> rfl

theorem employedEarningsUpdate_power (t : ℕ) (y : Year) (sal : ℚ) (s : Student) :
    (s.employedEarningsUpdate t y sal).earnings_power
      = min ((if t = s.actual_years_to_complete ∨ s.earnings_power = 0 then max 100 sal
              else s.earnings_power) * (1 + s.degree.experience_growth + y.inflation_rate))
            (s.degree.mean_earnings * (3/2) * y.deflator) := by
  simp only [Student.employedEarningsUpdate]
  split_ifs <;> rfl

theorem employedEarningsUpdate_degree (t : ℕ) (y : Year) (sal : ℚ) (s : Student) :
    (s.employedEarningsUpdate t y sal).degree = s.degree := by
  simp only [Student.employedEarningsUpdate]
  split_ifs <;> rfl

theorem employedEarningsUpdate_actual (t : ℕ) (y : Year) (sal : ℚ) (s : Student) :
    (s.employedEarningsUpdate t y sal).actual_years_to_complete
      = s.actual_years_to_complete := by
  simp only [Student.employedEarningsUpdate]
  split_ifs <;> rfl

theorem employedEarningsUpdate_german (t : ℕ) (y : Year) (sal : ℚ) (s : Student) :
    (s.employedEarningsUpdate t y sal).german_learning_years
      = s.german_learning_years := by
  simp only [Student.employedEarningsUpdate]
  split_ifs <;> rfl

/-- On the employed path, `calculate_earnings` updates `earnings_power` by
the reset / growth / cap pipeline of lines 271-291 and leaves the degree
data, the completion time and the German-phase length untouched. -/
theorem calculate_earnings_employed (s : Student) (t : ℕ) (y : Year)
    (d : Bool) (sal stip : ℚ) (h : takesEmployedPath s t y d) :
    (s.calculate_earnings t y d sal stip).2.earnings_power
      = min ((if t = s.actual_years_to_complete ∨ s.earnings_power = 0 then max 100 sal
              else s.earnings_power) * (1 + s.degree.experience_growth + y.inflation_rate))
            (s.degree.mean_earnings * (3/2) * y.deflator)
    ∧ (s.calculate_earnings t y d sal stip).2.degree = s.degree
    ∧ (s.calculate_earnings t y d sal stip).2.actual_years_to_complete
        = s.actual_years_to_complete
    ∧ (s.calculate_earnings t y d sal stip).2.german_learning_years
        = s.german_learning_years := by
  obtain ⟨hage, hger, hpass, hgrad, hwr, hu, hd⟩ := h
  subst hd
  have h1 : ¬(s.life_expectancy ≤ s.starting_age + (t : ℚ)) := not_le.mpr hage
  have h2 : ¬(t < s.german_learning_years) := by omega
  have h3 : ¬(0 < s.german_learning_years ∧ s.passed_german = none) := by
    rcases hpass with h0 | ⟨hp, _⟩
    · rintro ⟨hpos, _⟩
      omega
    · rintro ⟨_, hnone⟩
      rw [hp] at hnone
      exact Option.noConfusion hnone
  have h4 : ¬(0 < s.german_learning_years ∧ s.in_germany = false) := by
    rcases hpass with h0 | ⟨_, hg⟩
    · rintro ⟨hpos, _⟩
      omega
    · rintro ⟨_, hfalse⟩
      rw [hg] at hfalse
      exact Bool.noConfusion hfalse
  simp only [Student.calculate_earnings]
  simp [h1, h2, h3, h4, hgrad, hwr, hu,
    updateEmployment_is_employed y true _ hu,
    updateEmployment_earnings_power, updateEmployment_degree, updateEmployment_actual,
    updateEmployment_german, employedEarningsUpdate_power, employedEarningsUpdate_degree,
    employedEarningsUpdate_actual, employedEarningsUpdate_german]

/-- **C9.**  In `simulate_impact` the `Year` object is never advanced, so
both periods see the same economic state `y`.  For a student on the
employed path in two consecutive periods with
`experience_growth + inflation_rate > 0`, `earnings_power` does not
decrease from the first period to the next.  The nonnegativity hypotheses
(`earnings_power`, `mean_earnings`, `deflator`) hold throughout every run:
power starts at 0 and the update keeps it nonnegative, and
`deflator = 1` in the impact model. -/
theorem earnings_power_nondecreasing_while_employed (s0 : Student) (t : ℕ) (y : Year)
    (d1 d2 : Bool) (sal1 sal2 stip1 stip2 : ℚ)
    (h1 : takesEmployedPath s0 t y d1)
    (h2 : takesEmployedPath (s0.calculate_earnings t y d1 sal1 stip1).2 (t + 1) y d2)
    (hg : 0 < s0.degree.experience_growth + y.inflation_rate)
    (hp0 : 0 ≤ s0.earnings_power)
    (hmean : 0 ≤ s0.degree.mean_earnings)
    (hdefl : 0 ≤ y.deflator) :
    (s0.calculate_earnings t y d1 sal1 stip1).2.earnings_power
      ≤ (((s0.calculate_earnings t y d1 sal1 stip1).2).calculate_earnings
          (t + 1) y d2 sal2 stip2).2.earnings_power := by
  obtain ⟨hP1, hdeg1, hact1, hger1⟩ := calculate_earnings_employed s0 t y d1 sal1 stip1 h1
  obtain ⟨hP2, _, _, _⟩ :=
    calculate_earnings_employed (s0.calculate_earnings t y d1 sal1 stip1).2
      (t + 1) y d2 sal2 stip2 h2
  set s1 := (s0.calculate_earnings t y d1 sal1 stip1).2 with hs1
  rw [hdeg1, hact1] at hP2
  have hf1 : 1 < 1 + s0.degree.experience_growth + y.inflation_rate := by linarith
  have hf0 : 0 < 1 + s0.degree.experience_growth + y.inflation_rate := by linarith
  have hcapnn : 0 ≤ s0.degree.mean_earnings * (3/2) * y.deflator :=
    mul_nonneg (mul_nonneg hmean (by norm_num)) hdefl
  have hxnn : 0 ≤ (if t = s0.actual_years_to_complete ∨ s0.earnings_power = 0
      then max 100 sal1 else s0.earnings_power) := by
    split_ifs
    · exact le_trans (by norm_num) (le_max_left 100 sal1)
    · exact hp0
  have hP1nn : 0 ≤ s1.earnings_power := by
    rw [hP1]
    exact le_min (mul_nonneg hxnn (le_of_lt hf0)) hcapnn
  have hP1cap : s1.earnings_power ≤ s0.degree.mean_earnings * (3/2) * y.deflator := by
    rw [hP1]
    exact min_le_right _ _
  have hne : ¬(t + 1 = s0.actual_years_to_complete) := by
    have hgr := h1.2.2.2.1
    omega
  by_cases hz : s1.earnings_power = 0
  · rw [hP2, if_pos (Or.inr hz), hz]
    exact le_min
      (mul_nonneg (le_trans (by norm_num) (le_max_left 100 sal2)) (le_of_lt hf0))
      hcapnn
  · rw [hP2, if_neg (by tauto)]
    refine le_min ?_ hP1cap
    calc s1.earnings_power = s1.earnings_power * 1 := by ring
      _ ≤ s1.earnings_power * (1 + s0.degree.experience_growth + y.inflation_rate) := by
          exact mul_le_mul_of_nonneg_left (le_of_lt hf1) hP1nn
      _ = s1.earnings_power * (1 + s0.degree.experience_growth + y.inflation_rate) := rfl

/-- Witness for C9: a BA student employed in periods 4 and 5 with
`experience_growth + inflation_rate = 1 > 0` has non-decreasing earnings
power. -/
theorem earnings_power_nondecreasing_witness :
    takesEmployedPath baStudent 4 baselineYear true
    ∧ takesEmployedPath (baStudent.calculate_earnings 4 baselineYear true 200 0).2
        (4 + 1) baselineYear true
    ∧ 0 < baStudent.degree.experience_growth + baselineYear.inflation_rate
    ∧ 0 ≤ baStudent.earnings_power
    ∧ 0 ≤ baStudent.degree.mean_earnings
    ∧ 0 ≤ baselineYear.deflator
    ∧ (baStudent.calculate_earnings 4 baselineYear true 200 0).2.earnings_power
        ≤ (((baStudent.calculate_earnings 4 baselineYear true 200 0).2).calculate_earnings
            (4 + 1) baselineYear true 200 0).2.earnings_power := by
  have h1 : takesEmployedPath baStudent 4 baselineYear true := by
    norm_num [takesEmployedPath, baStudent, Student.init, baDegree, defaultCf,
      baselineYear, Year.init, calculate_graduation_delay]
  have h2 : takesEmployedPath (baStudent.calculate_earnings 4 baselineYear true 200 0).2
      (4 + 1) baselineYear true := by
    norm_num [takesEmployedPath, baStudent, Student.init, baDegree, defaultCf,
      baselineYear, Year.init, calculate_graduation_delay, Student.calculate_earnings,
      Student.germanCheckUpdate, Student.updateEmployment, Student.employedEarningsUpdate]
  refine ⟨h1, h2, ?_, ?_, ?_, ?_, ?_⟩
  · norm_num [baStudent, Student.init, baDegree, baselineYear, Year.init]
  · norm_num [baStudent, Student.init, baDegree, defaultCf, calculate_graduation_delay]
  · norm_num [baStudent, Student.init, baDegree]
  · norm_num [baselineYear, Year.init]
  · exact earnings_power_nondecreasing_while_employed baStudent 4 baselineYear true true
      200 200 0 0 h1 h2
      (by norm_num [baStudent, Student.init, baDegree, baselineYear, Year.init])
      (by norm_num [baStudent, Student.init, baDegree, defaultCf, calculate_graduation_delay])
      (by norm_num [baStudent, Student.init, baDegree])
      (by norm_num [baselineYear, Year.init])

theorem updateEmployment_is_graduated (y : Year) (d : Bool) (s : Student) :
    (s.updateEmployment y d).is_graduated = s.is_graduated := by
  simp only [Student.updateEmployment]
  split_ifs <;> rfl

theorem updateEmployment_will_return_home (y : Year) (d : Bool) (s : Student) :
    (s.updateEmployment y d).will_return_home = s.will_return_home := by
  simp only [Student.updateEmployment]
  split_ifs <;> rfl

theorem updateEmployment_is_home (y : Year) (d : Bool) (s : Student) :
    (s.updateEmployment y d).is_home = s.is_home := by
  simp only [Student.updateEmployment]
  split_ifs <;> rfl

theorem employedEarningsUpdate_is_graduated (t : ℕ) (y : Year) (sal : ℚ) (s : Student) :
    (s.employedEarningsUpdate t y sal).is_graduated = s.is_graduated := by
  simp only [Student.employedEarningsUpdate]
  split_ifs <;> rfl

theorem employedEarningsUpdate_will_return_home (t : ℕ) (y : Year) (sal : ℚ) (s : Student) :
    (s.employedEarningsUpdate t y sal).will_return_home = s.will_return_home := by
  simp only [Student.employedEarningsUpdate]
  split_ifs <;> rfl

theorem employedEarningsUpdate_is_home (t : ℕ) (y : Year) (sal : ℚ) (s : Student) :
    (s.employedEarningsUpdate t y sal).is_home = s.is_home := by
  simp only [Student.employedEarningsUpdate]
  split_ifs <;> rfl

/-- The invariant that justifies C4's hypothesis: one period of
`calculate_earnings` preserves "a graduated student who will return home is
already home" (the call that observes graduation and `will_return_home`
sets `is_home` itself).  A fresh student (`Student.init`) satisfies it
vacuously since `is_graduated = false`, so it holds at every period of
every run. -/
theorem calculate_earnings_home_invariant (s : Student) (t : ℕ) (y : Year)
    (d : Bool) (sal stip : ℚ)
    (h : s.is_graduated = true → s.will_return_home = true → s.is_home = true) :
    (s.calculate_earnings t y d sal stip).2.is_graduated = true
    → (s.calculate_earnings t y d sal stip).2.will_return_home = true
    → (s.calculate_earnings t y d sal stip).2.is_home = true := by
  by_cases h1 : s.life_expectancy ≤ s.starting_age + (t : ℚ)
  · simp only [Student.calculate_earnings]
    simp [h1]
    exact h
  · by_cases h2 : t < s.german_learning_years
    · simp only [Student.calculate_earnings]
      simp [h1, h2]
      exact h
    · by_cases h3 : 0 < s.german_learning_years ∧ s.passed_german = none
      · by_cases hNA : s.degree.name = "NA"
        · simp [Student.calculate_earnings, Student.germanCheckUpdate, h1, h2, h3, hNA]
        · by_cases hgrad : s.german_learning_years + s.actual_years_to_complete ≤ t
          · by_cases hwr : s.will_return_home = true
            · simp [Student.calculate_earnings, Student.germanCheckUpdate,
                h1, h2, h3, hNA, hgrad, hwr]
            · simp [Student.calculate_earnings, Student.germanCheckUpdate,
                h1, h2, h3, hNA, hgrad, hwr, apply_ite,
                updateEmployment_is_graduated, updateEmployment_will_return_home,
                updateEmployment_is_home, employedEarningsUpdate_is_graduated,
                employedEarningsUpdate_will_return_home, employedEarningsUpdate_is_home]
          · simp only [Student.calculate_earnings]
            simp [h1, h2, h3, hNA, hgrad, Student.germanCheckUpdate]
            split_ifs <;> simp
      · by_cases h4 : 0 < s.german_learning_years ∧ s.in_germany = false
        · have hpn : ¬(s.passed_german = none) := fun hpn => h3 ⟨h4.1, hpn⟩
          simp only [Student.calculate_earnings]
          simp [h1, h2, hpn, h4.1, h4.2]
          exact h
        · by_cases hgrad : s.german_learning_years + s.actual_years_to_complete ≤ t
          · by_cases hwr : s.will_return_home = true
            · simp [Student.calculate_earnings, h1, h2, h3, h4, hgrad, hwr]
            · simp [Student.calculate_earnings, h1, h2, h3, h4, hgrad, hwr, apply_ite,
                updateEmployment_is_graduated, updateEmployment_will_return_home,
                updateEmployment_is_home, employedEarningsUpdate_is_graduated,
                employedEarningsUpdate_will_return_home, employedEarningsUpdate_is_home]
          · simp only [Student.calculate_earnings]
            simp [h1, h2, h3, h4, hgrad]
            split_ifs <;> simp

/-- Witness for C4 at a concrete pool. -/
theorem sweep_fixed_priority_policy_witness :
    (∀ (i : ℕ) (c : Contract), c4pool.contracts[i]? = some c → c.student_id = i)
    ∧ (∀ s ∈ c4pool.students, s.is_graduated = true → s.will_return_home = true
        → s.is_home = true)
    ∧ c4pool.contracts[0]? = some (Contract.make 0 300 20)
    ∧ (Contract.make 0 300 20).is_active = true
    ∧ c4pool.students.find? (fun t => t.id == (Contract.make 0 300 20).student_id)
        = some baStudent
    ∧ ∃ cf : Contract, (c4pool.mark_remaining_as_defaulted).contracts[0]? = some cf
        ∧ cf.is_active = false
        ∧ cf.exit_reason = some
            (if c4pool.isa_cap * (1/2) ≤ baStudent.payments.sum then ExitReason.years_cap
             else if baStudent.is_home = true then ExitReason.home_return
             else ExitReason.default) := by
  have hids : ∀ (i : ℕ) (c : Contract), c4pool.contracts[i]? = some c
      → c.student_id = i := by
    intro i c hc
    match i with
    | 0 =>
      simp [c4pool] at hc
      rw [← hc]
      rfl
    | n + 1 => simp [c4pool] at hc
  have hhome : ∀ s ∈ c4pool.students, s.is_graduated = true → s.will_return_home = true
      → s.is_home = true := by
    intro s hs
    simp [c4pool] at hs
    subst hs
    intro hg
    simp [baStudent, Student.init] at hg
  have hi : c4pool.contracts[0]? = some (Contract.make 0 300 20) := rfl
  have hact : (Contract.make 0 300 20).is_active = true := rfl
  have hfind : c4pool.students.find? (fun t => t.id == (Contract.make 0 300 20).student_id)
      = some baStudent := rfl
  exact ⟨hids, hhome, hi, hact, hfind,
    sweep_fixed_priority_policy c4pool hids hhome 0 (Contract.make 0 300 20) hi hact
      baStudent hfind⟩

theorem sum_set_cases (l : List ℚ) (n : ℕ) (a : ℚ) (h0 : l.getD n 0 = 0) :
    (l.set n a).sum = l.sum + a ∨ (l.set n a).sum = l.sum := by
  induction l generalizing n with
  | nil => right; rfl
  | cons x xs ih =>
    match n with
    | 0 =>
      left
      have hx : x = 0 := by simpa using h0
      simp [List.set, hx]
      ring
    | m + 1 =>
      have h0m : xs.getD m 0 = 0 := by simpa using h0
      rcases ih m h0m with hcase | hcase
      · left
        simp [List.set, hcase]
        ring
      · right
        simp [List.set, hcase]

theorem getD_set_ne (l : List ℚ) (k j : ℕ) (a : ℚ) (h : k ≠ j) :
    (l.set k a).getD j 0 = l.getD j 0 := by
  induction l generalizing k j with
  | nil => rfl
  | cons x xs ih =>
    match k, j with
    | 0, 0 => omega
    | 0, m + 1 => simp [List.set]
    | n + 1, 0 => simp [List.set]
    | n + 1, m + 1 =>
      simp only [List.set, List.getD_cons_succ]
      exact ih n m (by omega)

theorem getD_replicate_zero (n j : ℕ) : (List.replicate n (0:ℚ)).getD j 0 = 0 := by
  induction n generalizing j with
  | zero => rfl
  | succ n ih =>
    match j with
    | 0 => rfl
    | m + 1 =>
      simp only [List.replicate, List.getD_cons_succ]
      exact ih m

theorem germanCheckUpdate_payments (s : Student) :
    (s.germanCheckUpdate).payments = s.payments := by
  simp only [Student.germanCheckUpdate]
  split_ifs <;> rfl

theorem updateEmployment_payments (y : Year) (d : Bool) (s : Student) :
    (s.updateEmployment y d).payments = s.payments := by
  simp only [Student.updateEmployment]
  split_ifs <;> rfl

theorem employedEarningsUpdate_payments (t : ℕ) (y : Year) (sal : ℚ) (s : Student) :
    (s.employedEarningsUpdate t y sal).payments = s.payments := by
  simp only [Student.employedEarningsUpdate]
  split_ifs <;> rfl

theorem calculate_earnings_payments (s : Student) (t : ℕ) (y : Year) (d : Bool)
    (sal stip : ℚ) :
    (s.calculate_earnings t y d sal stip).2.payments = s.payments := by
  by_cases h1 : s.life_expectancy ≤ s.starting_age + (t : ℚ)
  · simp [Student.calculate_earnings, h1]
  · by_cases h2 : t < s.german_learning_years
    · simp [Student.calculate_earnings, h1, h2]
    · by_cases h3 : 0 < s.german_learning_years ∧ s.passed_german = none
      · by_cases hNA : s.degree.name = "NA"
        · simp [Student.calculate_earnings, Student.germanCheckUpdate, h1, h2, h3, hNA]
        · simp only [Student.calculate_earnings]
          simp [h1, h2, h3, hNA, Student.germanCheckUpdate]
          split_ifs <;>
            simp [updateEmployment_payments, employedEarningsUpdate_payments]
      · by_cases h4 : 0 < s.german_learning_years ∧ s.in_germany = false
        · have hpn : ¬(s.passed_german = none) := fun hpn => h3 ⟨h4.1, hpn⟩
          simp [Student.calculate_earnings, h1, h2, hpn, h4.1, h4.2]
        · simp only [Student.calculate_earnings]
          simp [h1, h2, h3, h4]
          split_ifs <;>
            simp [updateEmployment_payments, employedEarningsUpdate_payments]

theorem markFirstActive_inactiveZero (l : List Contract) (sid : ℕ) (reason : ExitReason)
    (h : ∀ (idx : ℕ) (c : Contract), l[idx]? = some c → c.is_active = false
      → c.current_value = 0) :
    ∀ (idx : ℕ) (c : Contract), (markFirstActive l sid reason).1[idx]? = some c
      → c.is_active = false → c.current_value = 0 := by
  induction l generalizing sid with
  | nil =>
    intro idx c hc
    simp [markFirstActive] at hc
  | cons d ds ih =>
    intro idx c hc hinact
    by_cases hd : d.student_id = sid ∧ d.is_active = true
    · simp only [markFirstActive, if_pos hd] at hc
      match idx with
      | 0 =>
        rw [List.getElem?_cons_zero] at hc
        injection hc with hc
        rw [← hc]
        rfl
      | m + 1 =>
        rw [List.getElem?_cons_succ] at hc
        exact h (m + 1) c (by rw [List.getElem?_cons_succ]; exact hc) hinact
    · simp only [markFirstActive, if_neg hd] at hc
      match idx with
      | 0 =>
        rw [List.getElem?_cons_zero] at hc
        exact h 0 c (by rw [List.getElem?_cons_zero]; exact hc) hinact
      | m + 1 =>
        rw [List.getElem?_cons_succ] at hc
        exact ih sid
          (fun j c' hj hj2 => h (j + 1) c' (by rw [List.getElem?_cons_succ]; exact hj) hj2)
          m c hc hinact

theorem recordFirstActive_inactiveZero (l : List Contract) (sid : ℕ) (amount : ℚ)
    (h : ∀ (idx : ℕ) (c : Contract), l[idx]? = some c → c.is_active = false
      → c.current_value = 0) :
    ∀ (idx : ℕ) (c : Contract), (recordFirstActive l sid amount)[idx]? = some c
      → c.is_active = false → c.current_value = 0 := by
  induction l generalizing sid with
  | nil =>
    intro idx c hc
    simp [recordFirstActive] at hc
  | cons d ds ih =>
    intro idx c hc hinact
    by_cases hd : d.student_id = sid ∧ d.is_active = true
    · simp only [recordFirstActive, if_pos hd] at hc
      match idx with
      | 0 =>
        rw [List.getElem?_cons_zero] at hc
        injection hc with hc
        rw [← hc] at hinact
        have : (d.record_payment amount).is_active = d.is_active := rfl
        rw [this, hd.2] at hinact
        exact absurd hinact (by simp)
      | m + 1 =>
        rw [List.getElem?_cons_succ] at hc
        exact h (m + 1) c (by rw [List.getElem?_cons_succ]; exact hc) hinact
    · simp only [recordFirstActive, if_neg hd] at hc
      match idx with
      | 0 =>
        rw [List.getElem?_cons_zero] at hc
        exact h 0 c (by rw [List.getElem?_cons_zero]; exact hc) hinact
      | m + 1 =>
        rw [List.getElem?_cons_succ] at hc
        exact ih sid
          (fun j c' hj hj2 => h (j + 1) c' (by rw [List.getElem?_cons_succ]; exact hj) hj2)
          m c hc hinact

theorem getElem?_lt_of_some {l : List Contract} {idx : ℕ} {c : Contract}
    (hc : l[idx]? = some c) : idx < l.length := by
  by_contra hcon
  rw [List.getElem?_eq_none (by omega)] at hc
  exact absurd hc (by simp)

theorem studentPeriodStep_payments_sum
    (st : Student) (pool : InvestmentPool) (i : ℕ) (year : Year) (pct : ℚ)
    (d : Bool) (sal stip : ℚ)
    (hsum : st.payments.sum ≤ year.isa_cap)
    (hz : st.payments.getD (i - st.start_year) 0 = 0) :
    (studentPeriodStep st pool i year pct d sal stip).1.payments.sum ≤ year.isa_cap := by
  have hpay : (st.calculate_earnings (i - st.start_year) year d sal stip).2.payments
      = st.payments := calculate_earnings_payments st (i - st.start_year) year d sal stip
  simp only [studentPeriodStep]
  split_ifs
  all_goals try (simpa [hpay] using hsum)
  all_goals simp only [hpay]
  · rcases sum_set_cases st.payments (i - st.start_year)
        (year.isa_cap - st.payments.sum) hz with hcase | hcase <;> rw [hcase] <;> linarith
  · rcases sum_set_cases st.payments (i - st.start_year)
        (min ((st.calculate_earnings (i - st.start_year) year d sal stip).1 * pct)
          (year.isa_cap - st.payments.sum)) hz with hcase | hcase <;> rw [hcase]
    · have hm : min ((st.calculate_earnings (i - st.start_year) year d sal stip).1 * pct)
          (year.isa_cap - st.payments.sum) ≤ year.isa_cap - st.payments.sum :=
        min_le_right _ _
      linarith
    · exact hsum

theorem studentPeriodStep_zero_tail
    (st : Student) (pool : InvestmentPool) (i : ℕ) (year : Year) (pct : ℚ)
    (d : Bool) (sal stip : ℚ)
    (hz : ∀ j, i - st.start_year ≤ j → st.payments.getD j 0 = 0) :
    ∀ j, i - st.start_year + 1 ≤ j
      → (studentPeriodStep st pool i year pct d sal stip).1.payments.getD j 0 = 0 := by
  have hpay : (st.calculate_earnings (i - st.start_year) year d sal stip).2.payments
      = st.payments := calculate_earnings_payments st (i - st.start_year) year d sal stip
  intro j hj
  simp only [studentPeriodStep]
  split_ifs
  all_goals try (simp only [hpay]; exact hz j (by omega))
  all_goals simp only [hpay]
  all_goals rw [getD_set_ne _ _ _ _ (by omega)]
  all_goals exact hz j (by omega)

theorem studentPeriodStep_pool_frozen
    (st : Student) (pool : InvestmentPool) (i : ℕ) (year : Year) (pct : ℚ)
    (d : Bool) (sal stip : ℚ) (idx : ℕ) (c : Contract)
    (hc : pool.contracts[idx]? = some c) (hinact : c.is_active = false) :
    (studentPeriodStep st pool i year pct d sal stip).2.contracts[idx]? = some c := by
  simp only [studentPeriodStep]
  split_ifs
  all_goals first
    | exact hc
    | exact markFirstActive_frozen _ _ _ idx c hc hinact
    | exact recordFirstActive_frozen _ _ _ idx c
        (markFirstActive_frozen _ _ _ idx c hc hinact) hinact
    | exact recordFirstActive_frozen _ _ _ idx c hc hinact

theorem studentPeriodStep_inactiveZero
    (st : Student) (pool : InvestmentPool) (i : ℕ) (year : Year) (pct : ℚ)
    (d : Bool) (sal stip : ℚ) (h : inactiveZero pool) :
    inactiveZero (studentPeriodStep st pool i year pct d sal stip).2 := by
  simp only [studentPeriodStep]
  split_ifs
  all_goals first
    | exact h
    | exact markFirstActive_inactiveZero _ _ _ h
    | exact recordFirstActive_inactiveZero _ _ _ (markFirstActive_inactiveZero _ _ _ h)
    | exact recordFirstActive_inactiveZero _ _ _ h

theorem PoolOp_apply_frozen (p : InvestmentPool) (op : PoolOp) (idx : ℕ) (c : Contract)
    (hc : p.contracts[idx]? = some c) (hinact : c.is_active = false) :
    (PoolOp.apply p op).contracts[idx]? = some c := by
  cases op with
  | investOp a sy ny =>
    simp only [PoolOp.apply, InvestmentPool.invest]
    split_ifs
    · show (p.contracts ++ [Contract.make p.contracts.length sy ny])[idx]? = some c
      rw [List.getElem?_append, if_pos (getElem?_lt_of_some hc)]
      exact hc
    · exact hc
  | addStudentOp s => exact hc
  | receivePaymentOp a => exact hc
  | markExitOp sid r => exact markFirstActive_frozen _ _ _ idx c hc hinact
  | recordPaymentOp sid a => exact recordFirstActive_frozen _ _ _ idx c hc hinact
  | endYearOp => exact hc

theorem PoolOp_apply_inactiveZero (p : InvestmentPool) (op : PoolOp)
    (h : inactiveZero p) : inactiveZero (PoolOp.apply p op) := by
  cases op with
  | investOp a sy ny =>
    simp only [PoolOp.apply, InvestmentPool.invest]
    split_ifs
    · intro idx c hc hinact
      show c.current_value = 0
      have hc2 : (p.contracts ++ [Contract.make p.contracts.length sy ny])[idx]? = some c := hc
      rw [List.getElem?_append] at hc2
      by_cases hlt : idx < p.contracts.length
      · rw [if_pos hlt] at hc2
        exact h idx c hc2 hinact
      · rw [if_neg hlt] at hc2
        cases hk : idx - p.contracts.length with
        | zero =>
          rw [hk] at hc2
          simp only [List.getElem?_cons_zero, Option.some.injEq] at hc2
          rw [← hc2] at hinact
          exact absurd hinact (by simp [Contract.make])
        | succ m =>
          rw [hk] at hc2
          simp at hc2
    · exact h
  | addStudentOp s => exact h
  | receivePaymentOp a => exact h
  | markExitOp sid r => exact markFirstActive_inactiveZero _ _ _ h
  | recordPaymentOp sid a => exact recordFirstActive_inactiveZero _ _ _ h
  | endYearOp => exact h

theorem runStudent_invariant (year : Year) (pct : ℚ) :
    ∀ (items : List RunItem) (sp : Student × InvestmentPool) (k : ℕ),
    sp.1.payments.sum ≤ year.isa_cap →
    (∀ j, k ≤ j → sp.1.payments.getD j 0 = 0) →
    inactiveZero sp.2 →
    (runStudent year pct sp k items).1.payments.sum ≤ year.isa_cap
    ∧ inactiveZero (runStudent year pct sp k items).2
    ∧ ∀ (idx : ℕ) (c : Contract), sp.2.contracts[idx]? = some c → c.is_active = false →
        (runStudent year pct sp k items).2.contracts[idx]? = some c := by
  intro items
  induction items with
  | nil =>
    intro sp k hsum hz hq
    exact ⟨hsum, hq, fun idx c hc _ => hc⟩
  | cons item rest ih =>
    intro sp k hsum hz hq
    cases item with
    | step d sal stip =>
      have hrel : sp.1.start_year + k - sp.1.start_year = k :=
        Nat.add_sub_cancel_left sp.1.start_year k
      have hz0 : sp.1.payments.getD (sp.1.start_year + k - sp.1.start_year) 0 = 0 := by
        rw [hrel]
        exact hz k le_rfl
      have hsum2 := studentPeriodStep_payments_sum sp.1 sp.2 (sp.1.start_year + k) year pct
        d sal stip hsum hz0
      have hz1 : ∀ j, sp.1.start_year + k - sp.1.start_year ≤ j →
          sp.1.payments.getD j 0 = 0 := by
        rw [hrel]
        exact fun j hj => hz j hj
      have hz2 := studentPeriodStep_zero_tail sp.1 sp.2 (sp.1.start_year + k) year pct
        d sal stip hz1
      rw [hrel] at hz2
      have hq2 := studentPeriodStep_inactiveZero sp.1 sp.2 (sp.1.start_year + k) year pct
        d sal stip hq
      have main := ih (studentPeriodStep sp.1 sp.2 (sp.1.start_year + k) year pct d sal stip)
        (k + 1) hsum2 hz2 hq2
      simp only [runStudent]
      refine ⟨main.1, main.2.1, ?_⟩
      intro idx c hc hinact
      have hf1 := studentPeriodStep_pool_frozen sp.1 sp.2 (sp.1.start_year + k) year pct
        d sal stip idx c hc hinact
      exact main.2.2 idx c hf1 hinact
    | env op =>
      have hq2 := PoolOp_apply_inactiveZero sp.2 op hq
      have main := ih (sp.1, PoolOp.apply sp.2 op) k hsum hz hq2
      simp only [runStudent]
      exact ⟨main.1, main.2.1, fun idx c hc hinact =>
        main.2.2 idx c (PoolOp_apply_frozen sp.2 op idx c hc hinact) hinact⟩

/-- **C2.** In every run of the payment loop (impact_isa_model.py lines
995-1061; `simulate_impact` never advances the economic state, so the
inflation-indexed `isa_cap` is the same in every period of a run): starting
from a freshly initialised student (payments all zero) and a pool whose
inactive contracts all have `current_value = 0`, after any interleaving of
this student's period steps with the pool operations performed for the rest
of the run, (1) the student's cumulative recorded payments never exceed
`isa_cap`, (2) every inactive contract of the resulting pool has
`current_value = 0`, and (3) every contract that was already inactive is
unchanged — no further payments are recorded on it. -/
theorem cumulative_payments_never_exceed_cap
    (year : Year) (pct : ℚ) (s0 : Student) (p0 : InvestmentPool) (items : List RunItem)
    (hp : s0.payments = List.replicate s0.num_years 0)
    (hcap : 0 ≤ year.isa_cap)
    (hq : inactiveZero p0) :
    (runStudent year pct (s0, p0) 0 items).1.payments.sum ≤ year.isa_cap
    ∧ inactiveZero (runStudent year pct (s0, p0) 0 items).2
    ∧ ∀ (idx : ℕ) (c : Contract), p0.contracts[idx]? = some c → c.is_active = false →
        (runStudent year pct (s0, p0) 0 items).2.contracts[idx]? = some c := by
  have hsum : s0.payments.sum ≤ year.isa_cap := by
    rw [hp]
    simpa [List.sum_replicate] using hcap
  have hz : ∀ j, 0 ≤ j → s0.payments.getD j 0 = 0 := by
    intro j _
    rw [hp]
    exact getD_replicate_zero _ _
  exact runStudent_invariant year pct items (s0, p0) 0 hsum hz hq

/-- A closed instance of C2: one payment step for a fresh student on a fresh
pool keeps the cumulative payments at or below the cap. -/
theorem cumulative_payments_never_exceed_cap_witness :
    (runStudent baselineYear (1/10) (baStudent, InvestmentPool.init 100000 49500) 0
        [RunItem.step true 200 200]).1.payments.sum ≤ baselineYear.isa_cap :=
  (cumulative_payments_never_exceed_cap baselineYear (1/10) baStudent
    (InvestmentPool.init 100000 49500) [RunItem.step true 200 200]
    (by rfl) (by norm_num [baselineYear, Year.init])
    (fun idx c hc _ => by simp [InvestmentPool.init] at hc)).1

theorem sweepStep_funds (q : InvestmentPool) (k : ℕ) :
    (sweepStep q k).available_funds = q.available_funds
    ∧ (sweepStep q k).yearly_cash = q.yearly_cash
    ∧ (sweepStep q k).initial_amount = q.initial_amount := by
  cases hq : q.contracts[k]? with
  | none =>
    simp only [sweepStep, hq]
    exact ⟨trivial, trivial, trivial⟩
  | some c0 =>
    by_cases hact : c0.is_active = true
    · simp only [sweepStep, hq, if_pos hact]
      exact ⟨rfl, rfl, rfl⟩
    · simp only [sweepStep, hq, if_neg hact]
      exact ⟨trivial, trivial, trivial⟩

theorem sweep_funds (p : InvestmentPool) :
    (p.mark_remaining_as_defaulted).available_funds = p.available_funds
    ∧ (p.mark_remaining_as_defaulted).yearly_cash = p.yearly_cash
    ∧ (p.mark_remaining_as_defaulted).initial_amount = p.initial_amount := by
  unfold InvestmentPool.mark_remaining_as_defaulted
  generalize p.contracts.length = n
  induction n with
  | zero => exact ⟨rfl, rfl, rfl⟩
  | succ n ih =>
    rw [sweepFold_succ]
    have h := sweepStep_funds ((List.range n).foldl sweepStep p) n
    exact ⟨h.1.trans ih.1, h.2.1.trans ih.2.1, h.2.2.trans ih.2.2⟩

theorem PoolOp_apply_cash (p : InvestmentPool) (op : PoolOp)
    (hne : op ≠ PoolOp.endYearOp) :
    (PoolOp.apply p op).yearly_cash = p.yearly_cash
    ∧ (PoolOp.apply p op).initial_amount = p.initial_amount := by
  cases op with
  | investOp a sy ny =>
    simp only [PoolOp.apply, InvestmentPool.invest]
    split_ifs <;> exact ⟨rfl, rfl⟩
  | addStudentOp s => exact ⟨rfl, rfl⟩
  | receivePaymentOp a => exact ⟨rfl, rfl⟩
  | markExitOp sid r => exact ⟨rfl, rfl⟩
  | recordPaymentOp sid a => exact ⟨rfl, rfl⟩
  | endYearOp => exact absurd rfl hne

theorem applyOps_cash (ops : List PoolOp) : ∀ (p : InvestmentPool),
    (∀ op ∈ ops, op ≠ PoolOp.endYearOp) →
    (applyOps p ops).yearly_cash = p.yearly_cash
    ∧ (applyOps p ops).initial_amount = p.initial_amount := by
  induction ops with
  | nil =>
    intro p _
    exact ⟨rfl, rfl⟩
  | cons op rest ih =>
    intro p h
    have h1 := PoolOp_apply_cash p op (h op (by simp))
    have h2 := ih (PoolOp.apply p op) (fun o ho => h o (by simp [ho]))
    constructor
    · show (applyOps (PoolOp.apply p op) rest).yearly_cash = p.yearly_cash
      rw [h2.1, h1.1]
    · show (applyOps (PoolOp.apply p op) rest).initial_amount = p.initial_amount
      rw [h2.2, h1.2]

theorem end_year_cash (q : InvestmentPool) :
    (q.end_year).2.yearly_cash = q.yearly_cash ++ [q.available_funds]
    ∧ (q.end_year).2.initial_amount = q.initial_amount
    ∧ (q.end_year).2.available_funds = q.available_funds :=
  ⟨rfl, rfl, rfl⟩

theorem runYears_cash_length (p0 : InvestmentPool) (pre post : ℕ → List PoolOp)
    (hpre : ∀ (i : ℕ) (op : PoolOp), op ∈ pre i → op ≠ PoolOp.endYearOp)
    (hpost : ∀ (i : ℕ) (op : PoolOp), op ∈ post i → op ≠ PoolOp.endYearOp) :
    ∀ T, (runYears p0 pre post T).yearly_cash.length = p0.yearly_cash.length + T
    ∧ (runYears p0 pre post T).initial_amount = p0.initial_amount := by
  intro T
  induction T with
  | zero => exact ⟨rfl, rfl⟩
  | succ t ih =>
    have h1 := applyOps_cash (pre t) (runYears p0 pre post t) (hpre t)
    have h2 := applyOps_cash (post t)
      ((applyOps (runYears p0 pre post t) (pre t)).end_year).2 (hpost t)
    constructor
    · show (applyOps ((applyOps (runYears p0 pre post t) (pre t)).end_year).2
        (post t)).yearly_cash.length = p0.yearly_cash.length + (t + 1)
      rw [h2.1, (end_year_cash _).1, List.length_append, h1.1, ih.1]
      simp
      omega
    · show (applyOps ((applyOps (runYears p0 pre post t) (pre t)).end_year).2
        (post t)).initial_amount = p0.initial_amount
      rw [h2.2, (end_year_cash _).2.1, h1.2, ih.2]

theorem runYears_last_cash (p0 : InvestmentPool) (pre post : ℕ → List PoolOp) (t : ℕ)
    (hguard : ∀ i, ¬ (i + 15 < t + 1) → post i = []) :
    (runYears p0 pre post (t + 1)).yearly_cash.getLastD 0
      = (runYears p0 pre post (t + 1)).available_funds := by
  have hp : post t = [] := hguard t (by omega)
  have hrun : runYears p0 pre post (t + 1)
      = ((applyOps (runYears p0 pre post t) (pre t)).end_year).2 := by
    show applyOps ((applyOps (runYears p0 pre post t) (pre t)).end_year).2 (post t) = _
    rw [hp]
    rfl
  rw [hrun, (end_year_cash _).1, (end_year_cash _).2.2]
  exact List.getLastD_concat _ _ _

/-- **C6.** In every run of at least one period with positive initial
investment, the IRR the pool computes after the loop (lines 545-557) equals
`ln(final_cash / initial_investment) / num_years`, and is `-inf` whenever
`final_cash ≤ 0`.  The run is `runYears` from a fresh pool followed by the
end-of-horizon sweep: each period applies its payment-loop pool operations,
snapshots cash with `end_year`, then applies its reinvestment operations,
which the guard `i < num_years - 15` (line 1132) forces to be empty in the
last period — so the last cash snapshot is the run's final cash, and
`len(yearly_cash) - 1 = num_years`. -/
theorem irr_is_log_of_final_over_initial
    (initial isa_cap : ℚ) (pre post : ℕ → List PoolOp) (T : ℕ)
    (hT : 1 ≤ T) (hinit : 0 < initial)
    (hpre : ∀ (i : ℕ) (op : PoolOp), op ∈ pre i → op ≠ PoolOp.endYearOp)
    (hpost : ∀ (i : ℕ) (op : PoolOp), op ∈ post i → op ≠ PoolOp.endYearOp)
    (hguard : ∀ i, ¬ (i + 15 < T) → post i = []) :
    (InvestmentPool.mark_remaining_as_defaulted
        (runYears (InvestmentPool.init initial isa_cap) pre post T)).calculate_irr
      = (if (InvestmentPool.mark_remaining_as_defaulted
            (runYears (InvestmentPool.init initial isa_cap) pre post T)).available_funds ≤ 0
         then IRRVal.negInf
         else IRRVal.logOver (InvestmentPool.mark_remaining_as_defaulted
            (runYears (InvestmentPool.init initial isa_cap) pre post T)).available_funds
            initial T)
    ∧ IRRVal.denote ((InvestmentPool.mark_remaining_as_defaulted
        (runYears (InvestmentPool.init initial isa_cap) pre post T)).calculate_irr)
      = (if (InvestmentPool.mark_remaining_as_defaulted
            (runYears (InvestmentPool.init initial isa_cap) pre post T)).available_funds ≤ 0
         then (⊥ : EReal)
         else ((Real.log (((InvestmentPool.mark_remaining_as_defaulted
            (runYears (InvestmentPool.init initial isa_cap) pre post T)).available_funds : ℝ)
              / (initial : ℝ)) / (T : ℝ) : ℝ) : EReal)) := by
  obtain ⟨t, rfl⟩ : ∃ u, T = u + 1 := ⟨T - 1, by omega⟩
  set p := runYears (InvestmentPool.init initial isa_cap) pre post (t + 1) with hpd
  have hs := sweep_funds p
  have hlen := (runYears_cash_length (InvestmentPool.init initial isa_cap)
    pre post hpre hpost (t + 1)).1
  have hini := (runYears_cash_length (InvestmentPool.init initial isa_cap)
    pre post hpre hpost (t + 1)).2
  have hlast := runYears_last_cash (InvestmentPool.init initial isa_cap) pre post t hguard
  rw [← hpd] at hlen hini hlast
  have hql : p.mark_remaining_as_defaulted.yearly_cash.length = t + 2 := by
    rw [hs.2.1, hlen]
    show 1 + (t + 1) = t + 2
    omega
  have h2 : ¬ p.mark_remaining_as_defaulted.yearly_cash.length < 2 := by omega
  have hql1 : p.mark_remaining_as_defaulted.yearly_cash.length - 1 = t + 1 := by omega
  have hend : p.mark_remaining_as_defaulted.yearly_cash.getLastD 0
      = p.mark_remaining_as_defaulted.available_funds := by
    rw [hs.2.1, hs.1]
    exact hlast
  have hstart : p.mark_remaining_as_defaulted.initial_amount = initial := by
    rw [hs.2.2, hini]
    rfl
  have hirr : p.mark_remaining_as_defaulted.calculate_irr
      = if p.mark_remaining_as_defaulted.available_funds ≤ 0 then IRRVal.negInf
        else IRRVal.logOver p.mark_remaining_as_defaulted.available_funds initial (t + 1) := by
    unfold InvestmentPool.calculate_irr
    rw [if_neg h2]
    show (if p.mark_remaining_as_defaulted.yearly_cash.getLastD 0 ≤ 0
            ∨ p.mark_remaining_as_defaulted.initial_amount ≤ 0 then IRRVal.negInf
          else IRRVal.logOver (p.mark_remaining_as_defaulted.yearly_cash.getLastD 0)
            p.mark_remaining_as_defaulted.initial_amount
            (p.mark_remaining_as_defaulted.yearly_cash.length - 1)) = _
    rw [hend, hstart, hql1]
    by_cases hf : p.mark_remaining_as_defaulted.available_funds ≤ 0
    · rw [if_pos (Or.inl hf), if_pos hf]
    · have hni : ¬ (p.mark_remaining_as_defaulted.available_funds ≤ 0 ∨ initial ≤ 0) := by
        push_neg
        exact ⟨not_le.mp hf, hinit⟩
      rw [if_neg hni, if_neg hf]
  refine ⟨hirr, ?_⟩
  rw [hirr]
  by_cases hf : p.mark_remaining_as_defaulted.available_funds ≤ 0
  · rw [if_pos hf, if_pos hf]
    rfl
  · rw [if_neg hf, if_neg hf]
    rfl

/-- A closed instance of C6: a one-period run with no pool operations and
initial investment 100. -/
theorem irr_is_log_of_final_over_initial_witness :
    (InvestmentPool.mark_remaining_as_defaulted
        (runYears (InvestmentPool.init 100 50) (fun _ => []) (fun _ => []) 1)).calculate_irr
      = (if (InvestmentPool.mark_remaining_as_defaulted
            (runYears (InvestmentPool.init 100 50) (fun _ => []) (fun _ => []) 1)).available_funds ≤ 0
         then IRRVal.negInf
         else IRRVal.logOver (InvestmentPool.mark_remaining_as_defaulted
            (runYears (InvestmentPool.init 100 50) (fun _ => []) (fun _ => []) 1)).available_funds
            100 1) :=
  (irr_is_log_of_final_over_initial 100 50 (fun _ => []) (fun _ => []) 1 le_rfl
    (by norm_num) (fun i op h => absurd h (by simp)) (fun i op h => absurd h (by simp))
    (fun i _ => rfl)).1
